import Mathlib

/-!
reFES listing queries (`api/db.go`)

A shallow embedding of the three database operations of `api/db.go`:
`getContestListEntries`, `getRpgListEntries` and `getRpgPublic`.

* Go `string` values that only travel through comparisons and concatenation
  (region, filter, keyword, sort, direction, query text) are Lean `String`s.
* Go `int` values are Lean `Int`s; the code performs no arithmetic on them
  apart from the row counter, which counts rows of one result set.
* The bound parameters (`params []any`) are a list of `Arg`.
* The `database/sql` handle is a record of the calls the code makes on it.
-/

namespace Refes

/-! ## Query construction in `getRpgListEntries` -/

/-- One element of `params []any`: the code only ever appends a `string`
(keyword) or an `int`. -/
inductive Arg where
  | str : String → Arg
  | int : Int → Arg
  deriving DecidableEq, Repr

/-- The pair of local variables `query` and `params` threaded through the
body of `getRpgListEntries`. -/
abbrev QState := String × List Arg

/-- Lines 93-101: `params` starts nil, `query` starts as `SELECT * FROM`
and receives the table of the region. -/
def tableStep (region : String) : QState :=
  let params : List Arg := []
  let query := "SELECT * FROM"
  if region = "JPN" ∨ region = "" then
    (query ++ " games_jp", params)
  else
    (query ++ " games_us", params)

/-- Lines 103-123: the `switch` choosing the filter clause. -/
def filterStep (filter keyword : String) (contest award famer : Int) (st : QState) : QState :=
  let (query, params) := st
  if filter ≠ "" then
    let query := query ++ (" WHERE " ++ filter)
    let query :=
      if filter = "password" then
        query ++ " = ?"
      else
        query ++ " LIKE CONCAT('%', ?, '%')"
    (query, params ++ [Arg.str keyword])
  else if contest ≠ 0 then
    (query ++ " WHERE contest = ?", params ++ [Arg.int contest])
  else if award ≠ -1 then
    (query ++ " WHERE award = ?", params ++ [Arg.int award])
  else if famer ≠ 0 then
    (query ++ " WHERE famer = ?", params ++ [Arg.int famer])
  else
    (query, params)

/-- Lines 125-127: the ordering clause. -/
def sortStep (sort direction : String) (st : QState) : QState :=
  let (query, params) := st
  if sort ≠ "" then
    (query ++ (" ORDER BY " ++ sort ++ " " ++ direction), params)
  else
    (query, params)

/-- Lines 129-137: the pagination clauses. -/
def pageStep (count offset : Int) (st : QState) : QState :=
  let (query, params) := st
  if count > 0 then
    let query := query ++ " LIMIT ?"
    let params := params ++ [Arg.int count]
    if offset > 0 then
      (query ++ " OFFSET ?", params ++ [Arg.int offset])
    else
      (query, params)
  else
    (query, params)

/-- Lines 93-137 of `getRpgListEntries`: the query text and the bound
arguments handed to `db.Query`. -/
def rpgQuery (region filter keyword sort direction : String)
    (contest award famer count offset : Int) : QState :=
  pageStep count offset
    (sortStep sort direction
      (filterStep filter keyword contest award famer
        (tableStep region)))

/-! ## Library functions used by the row mapping -/

/-- A Go `error` value returned by the `database/sql` calls. -/
structure Error where
  msg : String
  deriving DecidableEq, Repr

/-- One byte of a Go `string` / `[]byte`. -/
abbrev Byte := Fin 256

/-- The ASCII digit of `d` (for `d < 10`). -/
def digitChar (d : Nat) : Char := Char.ofNat (48 + d)

/-- The digit loop of `strconv.Itoa`: digits are produced from the least
significant one and put in front of what is already there.  `fuel` bounds
the number of iterations. -/
def digitsAux : Nat → Nat → List Char → List Char
  | 0, _, acc => acc
  | fuel + 1, n, acc =>
    if n < 10 then digitChar n :: acc
    else digitsAux fuel (n / 10) (digitChar (n % 10) :: acc)

/-- Decimal numeral of a natural number; `n + 1` iterations always suffice. -/
def natNumeral (n : Nat) : List Char := digitsAux (n + 1) n []

/-- Go `strconv.Itoa`. -/
def Itoa (n : Int) : String :=
  if n < 0 then String.mk ('-' :: natNumeral n.natAbs) else String.mk (natNumeral n.toNat)

/-- The alphabet of `base64.StdEncoding`. -/
def encodeStd : List Char :=
  "ABCDEFGHIJKLMNOPQRSTUVWXYZabcdefghijklmnopqrstuvwxyz0123456789+/".data

/-- The character `encodeStd[i]`. -/
def encChar (i : Nat) : Char := encodeStd.getD i 'A'

/-- Go `base64.StdEncoding.Encode`: three bytes become four characters, a
remainder of one or two bytes is padded with `=`. -/
def encodeBytes : List Byte → List Char
  | [] => []
  | [a] =>
    let val := a.val * 65536
    [encChar (val / 262144 % 64), encChar (val / 4096 % 64), '=', '=']
  | [a, b] =>
    let val := a.val * 65536 + b.val * 256
    [encChar (val / 262144 % 64), encChar (val / 4096 % 64), encChar (val / 64 % 64), '=']
  | a :: b :: c :: rest =>
    let val := a.val * 65536 + b.val * 256 + c.val
    encChar (val / 262144 % 64) :: encChar (val / 4096 % 64) :: encChar (val / 64 % 64)
      :: encChar (val % 64) :: encodeBytes rest

/-- Go `base64.StdEncoding.EncodeToString`. -/
def EncodeToString (src : List Byte) : String := String.mk (encodeBytes src)

/-- The calendar and clock reading of a Go `time.Time` (what `Format`
prints with the layout used here). -/
structure Time where
  year : Int
  month : Nat
  day : Nat
  hour : Nat
  minute : Nat
  second : Nat
  deriving DecidableEq, Repr

/-- Go `time.appendInt`: the decimal numeral of `x`, zero-padded to `width`
digits, after a `-` when `x` is negative. -/
def appendInt (x : Int) (width : Nat) : List Char :=
  let ds := natNumeral x.natAbs
  let padded := List.replicate (width - ds.length) '0' ++ ds
  if x < 0 then '-' :: padded else padded

/-- Go `t.Format("2006-01-02 15:04:05")`. -/
def Time.Format (t : Time) : String :=
  String.mk (appendInt t.year 4 ++ '-' :: appendInt t.month 2 ++ '-' :: appendInt t.day 2
    ++ ' ' :: appendInt t.hour 2 ++ ':' :: appendInt t.minute 2 ++ ':' :: appendInt t.second 2)

/-- A Go `float64`, as its IEEE-754 bit pattern.  No arithmetic is done on
it; it is only handed to `strconv.FormatFloat`. -/
structure Float64 where
  bits : Nat
  deriving DecidableEq, Repr

/-- The single-character separator split of `strings.Split(s, sep)`: the
pieces of `s` between the occurrences of `sep`; one more piece than there
are separators, so the empty input gives one empty piece. -/
def splitChars (sep : Char) : List Char → List (List Char)
  | [] => [[]]
  | c :: cs =>
    if c = sep then [] :: splitChars sep cs
    else
      match splitChars sep cs with
      | [] => [[c]]
      | t :: ts => (c :: t) :: ts

/-- Go `strings.Split(s, ",")`. -/
def Split (s : String) : List String := (splitChars ',' s.data).map String.mk

/-! ## Data model -/

/-- Modelled from the spec: the declaration of `ContestListEntry` is not in
`api/db.go`; the fields are those of the composite literal at lines 74-83,
all of them text. -/
structure ContestListEntry where
  Id : String
  Name : String
  ApplyStart : String
  ApplyEnd : String
  ReviewStart : String
  ReviewEnd : String
  ExcStart : String
  ExcEnd : String
  deriving DecidableEq, Repr

/-- Modelled from the spec: the declaration of `RpgListEntry` is not in
`api/db.go`; the fields are those assigned at lines 157-249, all of them
text, a field that is not assigned being the empty string. -/
structure RpgListEntry where
  Sid : String
  Suid : String
  Title : String
  Uname : String
  Password : String
  Updt : String
  DataBlockSize : String
  Version : String
  PackageVersion : String
  ReviewAve : String
  Lang : String
  Edit : String
  Attribute : String
  Award : String
  Famer : String
  Comment : String
  Contest : String
  Owner : String
  DlCount : String
  Genre1 : String := ""
  Genre2 : String := ""
  Genre3 : String := ""
  Genre4 : String := ""
  Genre5 : String := ""
  Genre6 : String := ""
  Genre7 : String := ""
  Genre8 : String := ""
  Genre9 : String := ""
  Genre10 : String := ""
  Genre11 : String := ""
  Genre12 : String := ""
  Genre13 : String := ""
  Genre14 : String := ""
  Genre15 : String := ""
  Genre16 : String := ""
  Genre17 : String := ""
  Genre18 : String := ""
  Genre19 : String := ""
  Genre20 : String := ""
  Genre21 : String := ""
  Genre22 : String := ""
  Genre23 : String := ""
  Genre24 : String := ""
  Genre25 : String := ""
  Genre26 : String := ""
  Genre27 : String := ""
  Genre28 : String := ""
  Genre29 : String := ""
  Genre30 : String := ""
  Genre31 : String := ""
  Genre32 : String := ""
  Genre33 : String := ""
  Genre34 : String := ""
  deriving DecidableEq, Repr

/-- The variables filled by `results.Scan` at lines 66-69. -/
structure ContestRow where
  id : Int
  name : List Byte
  applyStart : Time
  applyEnd : Time
  reviewStart : Time
  reviewEnd : Time
  excStart : Time
  excEnd : Time
  deriving DecidableEq, Repr

/-- The variables filled by `results.Scan` at lines 148-152 (`attributeCol`
is the variable `attribute`, a reserved word here).  The columns
that the code converts with `[]byte(...)` are kept as bytes. -/
structure RpgRow where
  sid : Int
  suid : Int
  title : List Byte
  uname : List Byte
  password : String
  updt : Time
  datablocksize : Int
  version : Int
  packageversion : Int
  reviewave : Float64
  lang : String
  edit : Int
  attributeCol : Int
  award : Int
  famer : Int
  comment : List Byte
  contest : Int
  owner : Int
  genre : String
  dlcount : Int
  deriving DecidableEq, Repr

/-- A Go `map[string]V`: at most one value per key. -/
abbrev GoMap (V : Type) := List (String × V)

/-- The assignment `m[k] = v`. -/
def GoMap.set {V : Type} : GoMap V → String → V → GoMap V
  | [], k, v => [(k, v)]
  | (k0, v0) :: rest, k, v =>
    if k0 = k then (k, v) :: rest else (k0, v0) :: GoMap.set rest k v

/-- The lookup `m[k]`. -/
def GoMap.get? {V : Type} : GoMap V → String → Option V
  | [], _ => none
  | (k0, v0) :: rest, k => if k0 = k then some v0 else GoMap.get? rest k

/-- The keys of a map. -/
def GoMap.keys {V : Type} (m : GoMap V) : List String := m.map Prod.fst

/-- A `*sql.Rows` result set as the code can observe it: `rows` are the rows
for which `results.Next()` returns true, in order, each being what
`results.Scan` yields for it (the scanned variables or the error); `err` is
what `results.Err()` reports once `Next` has returned false: nothing when
the result set was read to its end, the error when iteration broke off
before the end. -/
structure Cursor (α : Type) where
  rows : List (Except Error α)
  err : Option Error

/-- The `database/sql` calls made by `api/db.go`: `db.Query` for the two
listings, giving a result set or the error of the query, and
`db.QueryRow(...).Scan(&count)` for the count. -/
structure DB where
  QueryContest : String → Except Error (Cursor ContestRow)
  QueryRpg : String → List Arg → Except Error (Cursor RpgRow)
  QueryRowCount : String → List Arg → Except Error Int

/-! ## Row mapping -/

/-- Lines 74-83: the `ContestListEntry` built from one scanned row. -/
def contestEntry (r : ContestRow) : ContestListEntry :=
  { Id := Itoa r.id
    Name := EncodeToString r.name
    ApplyStart := r.applyStart.Format
    ApplyEnd := r.applyEnd.Format
    ReviewStart := r.applyStart.Format
    ReviewEnd := r.applyEnd.Format
    ExcStart := r.excStart.Format
    ExcEnd := r.excEnd.Format }

/-- Lines 181-250: the `switch str` of the genre loop: the cases are tried
from the top, a string matching none of them changes nothing. -/
def setGenre (e : RpgListEntry) (str : String) : RpgListEntry :=
  if str = "1" then { e with Genre1 := "1" }
  else if str = "2" then { e with Genre2 := "1" }
  else if str = "3" then { e with Genre3 := "1" }
  else if str = "4" then { e with Genre4 := "1" }
  else if str = "5" then { e with Genre5 := "1" }
  else if str = "6" then { e with Genre6 := "1" }
  else if str = "7" then { e with Genre7 := "1" }
  else if str = "8" then { e with Genre8 := "1" }
  else if str = "9" then { e with Genre9 := "1" }
  else if str = "10" then { e with Genre10 := "1" }
  else if str = "11" then { e with Genre11 := "1" }
  else if str = "12" then { e with Genre12 := "1" }
  else if str = "13" then { e with Genre13 := "1" }
  else if str = "14" then { e with Genre14 := "1" }
  else if str = "15" then { e with Genre15 := "1" }
  else if str = "16" then { e with Genre16 := "1" }
  else if str = "17" then { e with Genre17 := "1" }
  else if str = "18" then { e with Genre18 := "1" }
  else if str = "19" then { e with Genre19 := "1" }
  else if str = "20" then { e with Genre20 := "1" }
  else if str = "21" then { e with Genre21 := "1" }
  else if str = "22" then { e with Genre22 := "1" }
  else if str = "23" then { e with Genre23 := "1" }
  else if str = "24" then { e with Genre24 := "1" }
  else if str = "25" then { e with Genre25 := "1" }
  else if str = "26" then { e with Genre26 := "1" }
  else if str = "27" then { e with Genre27 := "1" }
  else if str = "28" then { e with Genre28 := "1" }
  else if str = "29" then { e with Genre29 := "1" }
  else if str = "30" then { e with Genre30 := "1" }
  else if str = "31" then { e with Genre31 := "1" }
  else if str = "32" then { e with Genre32 := "1" }
  else if str = "33" then { e with Genre33 := "1" }
  else if str = "34" then { e with Genre34 := "1" }
  else e

/-- Lines 157-251: the `RpgListEntry` built from one scanned row.
`FormatFloat` stands for `strconv.FormatFloat(·, 'f', 5, 64)`. -/
def rpgEntry (FormatFloat : Float64 → String) (r : RpgRow) : RpgListEntry :=
  let rpgListEntry : RpgListEntry :=
    { Sid := Itoa r.sid
      Suid := Itoa r.suid
      Title := EncodeToString r.title
      Uname := EncodeToString r.uname
      Password := r.password
      Updt := r.updt.Format
      DataBlockSize := Itoa r.datablocksize
      Version := Itoa r.version
      PackageVersion := Itoa r.packageversion
      ReviewAve := FormatFloat r.reviewave
      Lang := r.lang
      Edit := Itoa r.edit
      Attribute := Itoa r.attributeCol
      Award := Itoa r.award
      Famer := Itoa r.famer
      Comment := EncodeToString r.comment
      Contest := Itoa r.contest
      Owner := Itoa r.owner
      DlCount := Itoa r.dlcount }
  (Split r.genre).foldl setGenre rpgListEntry

/-- The field `Genre<k>` of an entry (empty for `k` outside 1..34). -/
def RpgListEntry.Genre (e : RpgListEntry) : Nat → String
  | 1 => e.Genre1
  | 2 => e.Genre2
  | 3 => e.Genre3
  | 4 => e.Genre4
  | 5 => e.Genre5
  | 6 => e.Genre6
  | 7 => e.Genre7
  | 8 => e.Genre8
  | 9 => e.Genre9
  | 10 => e.Genre10
  | 11 => e.Genre11
  | 12 => e.Genre12
  | 13 => e.Genre13
  | 14 => e.Genre14
  | 15 => e.Genre15
  | 16 => e.Genre16
  | 17 => e.Genre17
  | 18 => e.Genre18
  | 19 => e.Genre19
  | 20 => e.Genre20
  | 21 => e.Genre21
  | 22 => e.Genre22
  | 23 => e.Genre23
  | 24 => e.Genre24
  | 25 => e.Genre25
  | 26 => e.Genre26
  | 27 => e.Genre27
  | 28 => e.Genre28
  | 29 => e.Genre29
  | 30 => e.Genre30
  | 31 => e.Genre31
  | 32 => e.Genre32
  | 33 => e.Genre33
  | 34 => e.Genre34
  | _ => ""

/-! ## The three operations -/

/-- Lines 52-57 of `getContestListEntries`: the query text. -/
def contestQuery (region : String) : String :=
  let table := if region = "JPN" ∨ region = "" then "contests_jp" else "contests_us"
  "SELECT * FROM " ++ table

/-- Lines 65-86: the row loop over the rows `results.Next()` delivers, with
the counter `cnt` and the map built so far.  When `Next` returns false the
loop ends and line 86 returns the map with a nil error. -/
def contestLoop : List (Except Error ContestRow) → Nat → GoMap ContestListEntry →
    Option (GoMap ContestListEntry) × Option Error
  | [], _, m => (some m, none)
  | Except.error err :: _, _, _ => (none, some err)
  | Except.ok row :: rest, cnt, m =>
    contestLoop rest (cnt + 1) (m.set (Itoa cnt) (contestEntry row))

/-- Go `getContestListEntries`.  The function never calls `results.Err()`,
so `results.err` is not read. -/
def getContestListEntries (db : DB) (region : String) :
    Option (GoMap ContestListEntry) × Option Error :=
  match db.QueryContest (contestQuery region) with
  | Except.error err => (none, some err)
  | Except.ok results => contestLoop results.rows 0 []

/-- Lines 147-256: the row loop over the rows `results.Next()` delivers,
with the counter `cnt` and the map built so far.  When `Next` returns false
the loop ends and line 256 returns the map with a nil error. -/
def rpgLoop (FormatFloat : Float64 → String) :
    List (Except Error RpgRow) → Nat → GoMap RpgListEntry →
    Option (GoMap RpgListEntry) × Option Error
  | [], _, m => (some m, none)
  | Except.error err :: _, _, _ => (none, some err)
  | Except.ok row :: rest, cnt, m =>
    rpgLoop FormatFloat rest (cnt + 1) (m.set (Itoa cnt) (rpgEntry FormatFloat row))

/-- Go `getRpgListEntries`.  The function never calls `results.Err()`, so
`results.err` is not read. -/
def getRpgListEntries (FormatFloat : Float64 → String) (db : DB)
    (region filter keyword sort direction : String)
    (contest award famer count offset : Int) :
    Option (GoMap RpgListEntry) × Option Error :=
  let (query, params) := rpgQuery region filter keyword sort direction contest award famer count offset
  match db.QueryRpg query params with
  | Except.error err => (none, some err)
  | Except.ok results => rpgLoop FormatFloat results.rows 0 []

/-- Lines 260-266 of `getRpgPublic`: the query text and its bound argument. -/
def publicQuery (sid : Int) (region : String) : QState :=
  let table := if region = "JPN" ∨ region = "" then "games_jp" else "games_us"
  ("SELECT COUNT(*) FROM " ++ table ++ " WHERE sid = ?", [Arg.int sid])

/-- Go `getRpgPublic`. -/
def getRpgPublic (db : DB) (sid : Int) (region : String) : Bool × Option Error :=
  let (query, params) := publicQuery sid region
  match db.QueryRowCount query params with
  | Except.error err => (false, some err)
  | Except.ok count => (decide (count ≠ 0), none)

/-! ## What each block of the query construction appends -/

/-- The text and arguments the filter `switch` appends to the query. -/
def filterClause (filter keyword : String) (contest award famer : Int) : QState :=
  filterStep filter keyword contest award famer ("", [])

/-- The text the ordering block appends to the query. -/
def sortClause (sort direction : String) : QState :=
  sortStep sort direction ("", [])

/-- The text and arguments the pagination block appends to the query. -/
def pageClause (count offset : Int) : QState :=
  pageStep count offset ("", [])

/-! ## The closed enumerations named in the comment at lines 89-91 -/

/-- The comment `filter | title - uname - suid - password`. -/
def filterColumns : List String := ["title", "uname", "suid", "password"]

/-- The comment `sort | updt - dlcount - reviewave`. -/
def sortColumns : List String := ["updt", "dlcount", "reviewave"]

/-- The comment `direction | asc - desc`. -/
def directions : List String := ["asc", "desc"]

/-- The filter clauses that can be written with the enumerated columns. -/
def closedWhere : List String :=
  "" :: filterColumns.map (fun f =>
      " WHERE " ++ f ++ (if f = "password" then " = ?" else " LIKE CONCAT('%', ?, '%')"))
    ++ [" WHERE contest = ?", " WHERE award = ?", " WHERE famer = ?"]

/-- The ordering clauses that can be written with the enumerated columns and
directions. -/
def closedOrder : List String :=
  "" :: sortColumns.flatMap (fun s => directions.map (fun d => " ORDER BY " ++ s ++ " " ++ d))

/-- The pagination clauses. -/
def closedLimit : List String := ["", " LIMIT ?", " LIMIT ? OFFSET ?"]

/-- Every query text in which the only variable parts are identifiers taken
from the closed enumerations. -/
def closedQueries : List String :=
  [" games_jp", " games_us"].flatMap (fun t =>
    closedWhere.flatMap (fun w =>
      closedOrder.flatMap (fun o =>
        closedLimit.map (fun l => "SELECT * FROM" ++ t ++ w ++ o ++ l))))

/-! ## Auxiliary definitions for the statements -/

/-- The number written by a list of decimal digits. -/
def numeralVal (cs : List Char) : Nat :=
  cs.foldl (fun a c => 10 * a + (c.toNat - 48)) 0

/-- The row loops of `getContestListEntries` and `getRpgListEntries` have
the same shape; this is that shape for an arbitrary row mapping. -/
def rowLoop {α V : Type} (entry : α → V) :
    List (Except Error α) → Nat → GoMap V → Option (GoMap V) × Option Error
  | [], _, m => (some m, none)
  | Except.error err :: _, _, _ => (none, some err)
  | Except.ok row :: rest, cnt, m =>
    rowLoop entry rest (cnt + 1) (m.set (Itoa cnt) (entry row))

/-- A game row with the given id and genre list, for concrete evaluations. -/
def sampleRpgRow (sid : Int) (genre : String) : RpgRow :=
  { sid := sid, suid := 2, title := [72, 105], uname := [0, 255], password := "pw",
    updt := ⟨2023, 4, 5, 6, 7, 8⟩, datablocksize := 10, version := 1, packageversion := 1,
    reviewave := ⟨0⟩, lang := "en", edit := 0, attributeCol := 0, award := 0, famer := 0,
    comment := [], contest := 0, owner := 3, genre := genre, dlcount := 12 }

/-- A contest row whose review window differs from its application window. -/
def contestRowA : ContestRow :=
  { id := 1, name := [67, 49],
    applyStart := ⟨2023, 1, 1, 0, 0, 0⟩, applyEnd := ⟨2023, 1, 31, 23, 59, 59⟩,
    reviewStart := ⟨2023, 2, 1, 0, 0, 0⟩, reviewEnd := ⟨2023, 2, 28, 23, 59, 59⟩,
    excStart := ⟨2023, 3, 1, 0, 0, 0⟩, excEnd := ⟨2023, 3, 31, 23, 59, 59⟩ }

/-- The same contest row with another review window. -/
def contestRowB : ContestRow :=
  { contestRowA with
    reviewStart := ⟨2024, 6, 1, 0, 0, 0⟩, reviewEnd := ⟨2024, 6, 30, 23, 59, 59⟩ }

/-- A store that answers every query with the given rows, all of which
decode, read to the end. -/
def sampleDB (rows : List RpgRow) (crows : List ContestRow) : DB :=
  { QueryContest := fun _ => Except.ok ⟨crows.map Except.ok, none⟩
    QueryRpg := fun _ _ => Except.ok ⟨rows.map Except.ok, none⟩
    QueryRowCount := fun _ _ => Except.ok 0 }

/-! ## Models of the collaborators, for the statements -/

/-- The two game tables of the backing store, each a list of rows. -/
structure Tables where
  games_jp : List RpgRow
  games_us : List RpgRow

/-- The value of `SELECT COUNT(*) FROM <table> WHERE sid = ?` on a table. -/
def countWhereSid (rows : List RpgRow) (sid : Int) : Int :=
  ((rows.filter (fun r => decide (r.sid = sid))).length : Int)

/-- A store over two game tables that evaluates the count query of
`getRpgPublic` and refuses anything else. -/
def tableDB (t : Tables) : DB :=
  { QueryContest := fun _ => Except.ok ⟨[], none⟩
    QueryRpg := fun _ _ => Except.ok ⟨[], none⟩
    QueryRowCount := fun q args =>
      match args with
      | [Arg.int sid] =>
        if q = "SELECT COUNT(*) FROM games_jp WHERE sid = ?" then
          Except.ok (countWhereSid t.games_jp sid)
        else if q = "SELECT COUNT(*) FROM games_us WHERE sid = ?" then
          Except.ok (countWhereSid t.games_us sid)
        else Except.error ⟨"unknown query"⟩
      | _ => Except.error ⟨"wrong arguments"⟩ }

/-- A store whose every call fails with the given error. -/
def failingDB (err : Error) : DB :=
  { QueryContest := fun _ => Except.error err
    QueryRpg := fun _ _ => Except.error err
    QueryRowCount := fun _ _ => Except.error err }

/-- A store that answers every listing query with the given result sets,
rows that fail to decode and iteration that breaks off included. -/
def cursorDB (results : Cursor RpgRow) (cresults : Cursor ContestRow) : DB :=
  { QueryContest := fun _ => Except.ok cresults
    QueryRpg := fun _ _ => Except.ok results
    QueryRowCount := fun _ _ => Except.ok 0 }

/-- The position of a character in the alphabet of `base64.StdEncoding`, if
it is in it (the decode map of the encoding). -/
def decIdx (c : Char) : Option Nat :=
  let i := encodeStd.indexOf c
  if i < 64 then some i else none

/-- The byte with the low eight bits of `n`. -/
def lowByte (n : Nat) : Byte := ⟨n % 256, Nat.mod_lt n (by decide)⟩

/-- Go `base64.StdEncoding.Decode` on padded input: every four characters
give three bytes; a final group ending in one or two `=` gives two bytes or
one byte; anything else is rejected. -/
def decodeChars : List Char → Option (List Byte)
  | [] => some []
  | c0 :: c1 :: c2 :: c3 :: rest =>
    if rest = [] ∧ c3 = '=' then
      if c2 = '=' then
        match decIdx c0, decIdx c1 with
        | some s0, some s1 =>
          let val := s0 * 262144 + s1 * 4096
          some [lowByte (val / 65536)]
        | _, _ => none
      else
        match decIdx c0, decIdx c1, decIdx c2 with
        | some s0, some s1, some s2 =>
          let val := s0 * 262144 + s1 * 4096 + s2 * 64
          some [lowByte (val / 65536), lowByte (val / 256)]
        | _, _, _ => none
    else
      match decIdx c0, decIdx c1, decIdx c2, decIdx c3, decodeChars rest with
      | some s0, some s1, some s2, some s3, some tail =>
        let val := s0 * 262144 + s1 * 4096 + s2 * 64 + s3
        some (lowByte (val / 65536) :: lowByte (val / 256) :: lowByte val :: tail)
      | _, _, _, _, _ => none
  | _ => none

/-- Go `base64.StdEncoding.DecodeString`. -/
def DecodeString (s : String) : Option (List Byte) := decodeChars s.data

/-- Whether some suffix of the text satisfies `f`. -/
def anySuffix (f : List Char → Bool) : List Char → Bool
  | [] => f []
  | c :: t => f (c :: t) || anySuffix f t

/-- Standard SQL `text LIKE pattern` with a case-sensitive comparison and
no escape character: `%` stands for any run of characters, `_` for any one
character, every other character for itself. -/
def likeMatch : List Char → List Char → Bool
  | [], t => t.isEmpty
  | p0 :: p, t =>
    if p0 = '%' then anySuffix (likeMatch p) t
    else
      match t with
      | [] => false
      | c :: t1 => (decide (p0 = '_') || decide (p0 = c)) && likeMatch p t1

/-- The SQL expression `CONCAT('%', ?, '%')` with the keyword bound. -/
def likePattern (keyword : String) : List Char := '%' :: keyword.data ++ ['%']

/-- Whether `keyword` occurs in `text` as a contiguous run of characters. -/
def containsSub (keyword text : List Char) : Bool := decide (keyword <:+: text)

/-- The decimal integer written by a text: an optional `-` and digits. -/
def parseDecimal (s : String) : Int :=
  match s.data with
  | '-' :: ds => - (numeralVal ds : Int)
  | ds => (numeralVal ds : Int)

/-- The nineteen fields of an entry that are not genre flags, in the order
of the composite literal at lines 157-177. -/
def RpgListEntry.baseFields (e : RpgListEntry) : List String :=
  [e.Sid, e.Suid, e.Title, e.Uname, e.Password, e.Updt, e.DataBlockSize, e.Version,
   e.PackageVersion, e.ReviewAve, e.Lang, e.Edit, e.Attribute, e.Award, e.Famer, e.Comment,
   e.Contest, e.Owner, e.DlCount]

/-- The number of `?` placeholders in a text. -/
def placeholders (s : String) : Nat := s.data.count '?'

/-- The rows selected by `<column> LIKE CONCAT('%', ?, '%')` with the
keyword bound, `col` reading the text of the column. -/
def selectLike {α : Type} (col : α → List Char) (keyword : String) (rows : List α) : List α :=
  rows.filter (fun r => likeMatch (likePattern keyword) (col r))

/-- The rows whose column contains the keyword as a literal substring. -/
def selectContaining {α : Type} (col : α → List Char) (keyword : String) (rows : List α) :
    List α :=
  rows.filter (fun r => containsSub keyword.data (col r))

/-! ## Query construction: the blocks only append -/

theorem filterStep_append (filter keyword : String) (contest award famer : Int)
    (q : String) (ps : List Arg) :
    filterStep filter keyword contest award famer (q, ps)
      = (q ++ (filterClause filter keyword contest award famer).1,
         ps ++ (filterClause filter keyword contest award famer).2) := by
  unfold filterClause filterStep
  split_ifs <;> simp [String.append_assoc]

theorem sortStep_append (sort direction : String) (q : String) (ps : List Arg) :
    sortStep sort direction (q, ps) = (q ++ (sortClause sort direction).1, ps) := by
  unfold sortClause sortStep
  split_ifs <;> simp [String.append_assoc]

theorem pageStep_append (count offset : Int) (q : String) (ps : List Arg) :
    pageStep count offset (q, ps)
      = (q ++ (pageClause count offset).1, ps ++ (pageClause count offset).2) := by
  unfold pageClause pageStep
  split_ifs <;> simp [String.append_assoc]

theorem tableStep_args (region : String) : (tableStep region).2 = [] := by
  unfold tableStep
  split_ifs <;> rfl

/-- The query of `getRpgListEntries` is the table selection followed by what
the three blocks append, and its arguments are those of the filter block
followed by those of the pagination block. -/
theorem rpgQuery_eq (region filter keyword sort direction : String)
    (contest award famer count offset : Int) :
    rpgQuery region filter keyword sort direction contest award famer count offset
      = ((tableStep region).1 ++ (filterClause filter keyword contest award famer).1
            ++ (sortClause sort direction).1 ++ (pageClause count offset).1,
         (filterClause filter keyword contest award famer).2 ++ (pageClause count offset).2) := by
  have h : tableStep region = ((tableStep region).1, []) := by
    rw [← tableStep_args region]
  unfold rpgQuery
  rw [h, filterStep_append, sortStep_append, pageStep_append]
  simp

theorem filterClause_filter (filter keyword : String) (contest award famer : Int)
    (h : filter ≠ "") :
    filterClause filter keyword contest award famer
      = (" WHERE " ++ filter ++ (if filter = "password" then " = ?"
            else " LIKE CONCAT('%', ?, '%')"), [Arg.str keyword]) := by
  unfold filterClause filterStep
  split_ifs <;> simp_all [String.append_assoc]

theorem filterClause_contest (keyword : String) (contest award famer : Int)
    (h : contest ≠ 0) :
    filterClause "" keyword contest award famer = (" WHERE contest = ?", [Arg.int contest]) := by
  unfold filterClause filterStep
  simp [h]

theorem filterClause_award (keyword : String) (award famer : Int) (h : award ≠ -1) :
    filterClause "" keyword 0 award famer = (" WHERE award = ?", [Arg.int award]) := by
  unfold filterClause filterStep
  simp [h]

theorem filterClause_famer (keyword : String) (famer : Int) (h : famer ≠ 0) :
    filterClause "" keyword 0 (-1) famer = (" WHERE famer = ?", [Arg.int famer]) := by
  unfold filterClause filterStep
  simp [h]

theorem filterClause_none (keyword : String) :
    filterClause "" keyword 0 (-1) 0 = ("", []) := by
  unfold filterClause filterStep
  simp

theorem pageClause_none (count offset : Int) (h : count ≤ 0) :
    pageClause count offset = ("", []) := by
  unfold pageClause pageStep
  simp [not_lt.mpr h]

theorem pageClause_limit (count offset : Int) (hc : count > 0) (ho : offset ≤ 0) :
    pageClause count offset = (" LIMIT ?", [Arg.int count]) := by
  unfold pageClause pageStep
  simp [hc, not_lt.mpr ho]

theorem pageClause_both (count offset : Int) (hc : count > 0) (ho : offset > 0) :
    pageClause count offset = (" LIMIT ? OFFSET ?", [Arg.int count, Arg.int offset]) := by
  unfold pageClause pageStep
  simp [hc, ho]

/-- C1: the filter part of the query of `getRpgListEntries` and its bound
argument are chosen by first match in the order filter, contest, award,
famer; at most one clause and one argument are produced; with
`filter = "title"` and `contest = 5` only the title clause, bound to
keyword, is produced. -/
theorem filter_precedence (region filter keyword sort direction : String)
    (contest award famer count offset : Int) :
    ∃ clause : String, ∃ fargs : List Arg,
      rpgQuery region filter keyword sort direction contest award famer count offset
        = ((tableStep region).1 ++ clause ++ (sortClause sort direction).1
              ++ (pageClause count offset).1,
           fargs ++ (pageClause count offset).2)
      ∧ (filter ≠ "" →
          clause = " WHERE " ++ filter ++ (if filter = "password" then " = ?"
              else " LIKE CONCAT('%', ?, '%')")
          ∧ fargs = [Arg.str keyword])
      ∧ (filter = "" → contest ≠ 0 →
          clause = " WHERE contest = ?" ∧ fargs = [Arg.int contest])
      ∧ (filter = "" → contest = 0 → award ≠ -1 →
          clause = " WHERE award = ?" ∧ fargs = [Arg.int award])
      ∧ (filter = "" → contest = 0 → award = -1 → famer ≠ 0 →
          clause = " WHERE famer = ?" ∧ fargs = [Arg.int famer])
      ∧ (filter = "" → contest = 0 → award = -1 → famer = 0 →
          clause = "" ∧ fargs = [])
      ∧ fargs.length ≤ 1
      ∧ rpgQuery region "title" keyword sort direction 5 award famer count offset
        = ((tableStep region).1 ++ " WHERE title LIKE CONCAT('%', ?, '%')"
              ++ (sortClause sort direction).1 ++ (pageClause count offset).1,
           [Arg.str keyword] ++ (pageClause count offset).2) := by
  refine ⟨(filterClause filter keyword contest award famer).1,
    (filterClause filter keyword contest award famer).2, rpgQuery_eq _ _ _ _ _ _ _ _ _ _,
    ?_, ?_, ?_, ?_, ?_, ?_, ?_⟩
  · intro h
    rw [filterClause_filter _ _ _ _ _ h]
    exact ⟨rfl, rfl⟩
  · intro hf hc
    subst hf
    rw [filterClause_contest _ _ _ _ hc]
    exact ⟨rfl, rfl⟩
  · intro hf hc ha
    subst hf; subst hc
    rw [filterClause_award _ _ _ ha]
    exact ⟨rfl, rfl⟩
  · intro hf hc ha hm
    subst hf; subst hc; subst ha
    rw [filterClause_famer _ _ hm]
    exact ⟨rfl, rfl⟩
  · intro hf hc ha hm
    subst hf; subst hc; subst ha; subst hm
    rw [filterClause_none]
    exact ⟨rfl, rfl⟩
  · unfold filterClause filterStep
    split_ifs <;> simp
  · rw [rpgQuery_eq, filterClause_filter _ _ _ _ _ (by decide)]
    rfl

/-- C2: with filter empty and contest 0, award -1 produces no award clause
and the decision falls through to famer (0 meaning unset there), while
every other award value, 0 and the other negative values included, produces
the award clause bound to award. -/
theorem award_sentinel (region keyword sort direction : String)
    (award famer count offset : Int) :
    (award ≠ -1 →
      rpgQuery region "" keyword sort direction 0 award famer count offset
        = ((tableStep region).1 ++ " WHERE award = ?" ++ (sortClause sort direction).1
              ++ (pageClause count offset).1,
           Arg.int award :: (pageClause count offset).2))
    ∧ (famer ≠ 0 →
      rpgQuery region "" keyword sort direction 0 (-1) famer count offset
        = ((tableStep region).1 ++ " WHERE famer = ?" ++ (sortClause sort direction).1
              ++ (pageClause count offset).1,
           Arg.int famer :: (pageClause count offset).2))
    ∧ rpgQuery region "" keyword sort direction 0 (-1) 0 count offset
        = ((tableStep region).1 ++ (sortClause sort direction).1
              ++ (pageClause count offset).1,
           (pageClause count offset).2)
    ∧ rpgQuery region "" keyword sort direction 0 0 famer count offset
        = ((tableStep region).1 ++ " WHERE award = ?" ++ (sortClause sort direction).1
              ++ (pageClause count offset).1,
           Arg.int 0 :: (pageClause count offset).2)
    ∧ rpgQuery region "" keyword sort direction 0 (-2) famer count offset
        = ((tableStep region).1 ++ " WHERE award = ?" ++ (sortClause sort direction).1
              ++ (pageClause count offset).1,
           Arg.int (-2) :: (pageClause count offset).2) := by
  refine ⟨?_, ?_, ?_, ?_, ?_⟩
  · intro h
    rw [rpgQuery_eq, filterClause_award _ _ _ h]
    rfl
  · intro h
    rw [rpgQuery_eq, filterClause_famer _ _ h]
    rfl
  · rw [rpgQuery_eq, filterClause_none]
    simp
  · rw [rpgQuery_eq, filterClause_award _ _ _ (by decide)]
    rfl
  · rw [rpgQuery_eq, filterClause_award _ _ _ (by decide)]
    rfl

/-- C3: the pagination part of the query of `getRpgListEntries` is nothing
when `count <= 0` whatever the offset, exactly ` LIMIT ?` binding count when
`count > 0` and `offset <= 0`, and exactly ` LIMIT ? OFFSET ?` binding count
then offset when both are positive; so OFFSET never appears without LIMIT. -/
theorem pagination_clause (region filter keyword sort direction : String)
    (contest award famer count offset : Int) :
    ∃ page : String, ∃ pargs : List Arg,
      rpgQuery region filter keyword sort direction contest award famer count offset
        = ((tableStep region).1 ++ (filterClause filter keyword contest award famer).1
              ++ (sortClause sort direction).1 ++ page,
           (filterClause filter keyword contest award famer).2 ++ pargs)
      ∧ (count ≤ 0 → page = "" ∧ pargs = [])
      ∧ (count > 0 → offset ≤ 0 → page = " LIMIT ?" ∧ pargs = [Arg.int count])
      ∧ (count > 0 → offset > 0 →
          page = " LIMIT ? OFFSET ?" ∧ pargs = [Arg.int count, Arg.int offset])
      ∧ (page = "" ∨ page = " LIMIT ?" ∨ page = " LIMIT ? OFFSET ?")
      ∧ pageClause 0 5 = ("", [])
      ∧ pageClause 10 0 = (" LIMIT ?", [Arg.int 10])
      ∧ pageClause 10 5 = (" LIMIT ? OFFSET ?", [Arg.int 10, Arg.int 5]) := by
  refine ⟨(pageClause count offset).1, (pageClause count offset).2,
    rpgQuery_eq _ _ _ _ _ _ _ _ _ _, ?_, ?_, ?_, ?_, ?_, ?_, ?_⟩
  · intro h
    rw [pageClause_none _ _ h]
    exact ⟨rfl, rfl⟩
  · intro hc ho
    rw [pageClause_limit _ _ hc ho]
    exact ⟨rfl, rfl⟩
  · intro hc ho
    rw [pageClause_both _ _ hc ho]
    exact ⟨rfl, rfl⟩
  · rcases le_or_lt count 0 with hc | hc
    · rw [pageClause_none _ _ hc]
      exact Or.inl rfl
    · rcases le_or_lt offset 0 with ho | ho
      · rw [pageClause_limit _ _ hc ho]
        exact Or.inr (Or.inl rfl)
      · rw [pageClause_both _ _ hc ho]
        exact Or.inr (Or.inr rfl)
  · decide
  · decide
  · decide

theorem like_ne_exact (filter : String) :
    " WHERE " ++ filter ++ " LIKE CONCAT('%', ?, '%')" ≠ " WHERE password = ?" := by
  intro h
  have h2 : (" WHERE " ++ filter ++ " LIKE CONCAT('%', ?, '%')").data.getLast?
      = (" WHERE password = ?").data.getLast? := by rw [h]
  rw [String.data_append, List.getLast?_append_of_ne_nil _ (by decide)] at h2
  exact absurd h2 (by decide)

/-- C4: for a non-empty filter the clause is the exact-match comparison
` WHERE password = ?` if and only if the filter is `password`; any other
non-empty filter gives the `LIKE CONCAT('%', ?, '%')` clause on that column;
in both cases the single bound filter argument is the keyword itself. -/
theorem password_exact_match (region filter keyword sort direction : String)
    (contest award famer count offset : Int) (h : filter ≠ "") :
    ∃ clause : String,
      rpgQuery region filter keyword sort direction contest award famer count offset
        = ((tableStep region).1 ++ clause ++ (sortClause sort direction).1
              ++ (pageClause count offset).1,
           Arg.str keyword :: (pageClause count offset).2)
      ∧ (clause = " WHERE password = ?" ↔ filter = "password")
      ∧ (filter ≠ "password" → clause = " WHERE " ++ filter ++ " LIKE CONCAT('%', ?, '%')") := by
  refine ⟨(filterClause filter keyword contest award famer).1, ?_, ?_, ?_⟩
  · rw [rpgQuery_eq, filterClause_filter _ _ _ _ _ h]
    rfl
  · rw [filterClause_filter _ _ _ _ _ h]
    constructor
    · intro hc
      by_contra hp
      simp only [hp, if_false] at hc
      exact like_ne_exact filter hc
    · intro hp
      subst hp
      rfl
  · intro hp
    rw [filterClause_filter _ _ _ _ _ h]
    simp [hp]

theorem password_exact_match_witness :
    ∃ clause : String,
      rpgQuery "JPN" "password" "secret" "" "" 0 (-1) 0 0 0
        = ((tableStep "JPN").1 ++ clause ++ (sortClause "" "").1 ++ (pageClause 0 0).1,
           Arg.str "secret" :: (pageClause 0 0).2)
      ∧ (clause = " WHERE password = ?" ↔ "password" = "password")
      ∧ ("password" ≠ "password" → clause = " WHERE " ++ "password" ++ " LIKE CONCAT('%', ?, '%')") :=
  password_exact_match "JPN" "password" "secret" "" "" 0 (-1) 0 0 0 (by decide)

theorem filterClause_text_congr (filter keyword keyword2 : String)
    (contest award famer contest2 award2 famer2 : Int)
    (hc : contest ≠ 0 ↔ contest2 ≠ 0) (ha : award ≠ -1 ↔ award2 ≠ -1)
    (hf : famer ≠ 0 ↔ famer2 ≠ 0) :
    (filterClause filter keyword contest award famer).1
      = (filterClause filter keyword2 contest2 award2 famer2).1 := by
  unfold filterClause filterStep
  by_cases h1 : filter = ""
  · by_cases h2 : contest = 0
    · by_cases h3 : award = -1
      · by_cases h4 : famer = 0
        · have h2' : contest2 = 0 := by by_contra h; exact (hc.mpr h) h2
          have h3' : award2 = -1 := by by_contra h; exact (ha.mpr h) h3
          have h4' : famer2 = 0 := by by_contra h; exact (hf.mpr h) h4
          simp [h1, h2, h3, h4, h2', h3', h4']
        · have h2' : contest2 = 0 := by by_contra h; exact (hc.mpr h) h2
          have h3' : award2 = -1 := by by_contra h; exact (ha.mpr h) h3
          have h4' : famer2 ≠ 0 := hf.mp h4
          simp [h1, h2, h3, h4, h2', h3', h4']
      · have h2' : contest2 = 0 := by by_contra h; exact (hc.mpr h) h2
        have h3' : award2 ≠ -1 := ha.mp h3
        simp [h1, h2, h3, h2', h3']
    · have h2' : contest2 ≠ 0 := hc.mp h2
      simp [h1, h2, h2']
  · simp [h1]

theorem pageClause_text_congr (count offset count2 offset2 : Int)
    (hn : count > 0 ↔ count2 > 0) (ho : offset > 0 ↔ offset2 > 0) :
    (pageClause count offset).1 = (pageClause count2 offset2).1 := by
  unfold pageClause pageStep
  by_cases h1 : count > 0
  · by_cases h2 : offset > 0
    · simp [h1, h2, hn.mp h1, ho.mp h2]
    · have h2' : ¬ offset2 > 0 := fun h => h2 (ho.mpr h)
      simp only [h1, h2, hn.mp h1, h2', if_true, if_false]
  · have h1' : ¬ count2 > 0 := fun h => h1 (hn.mpr h)
    simp only [h1, h1', if_false]

/-- C5: the query text of `getRpgListEntries` is the same for any two calls
that agree on region, filter, sort, direction and on the outcome of the
tests `contest != 0`, `award != -1`, `famer != 0`, `count > 0`,
`offset > 0`, whatever the keyword and the numbers are; these values occur
only in the bound-argument list, and the store is consulted only through
that text and that list.  The query text of `getRpgPublic` does not depend
on `sid`, which is its single bound argument. -/
theorem values_only_bound (FormatFloat : Float64 → String)
    (region filter sort direction keyword keyword2 : String)
    (contest award famer count offset contest2 award2 famer2 count2 offset2 sid sid2 : Int)
    (hc : contest ≠ 0 ↔ contest2 ≠ 0) (ha : award ≠ -1 ↔ award2 ≠ -1)
    (hf : famer ≠ 0 ↔ famer2 ≠ 0) (hn : count > 0 ↔ count2 > 0)
    (ho : offset > 0 ↔ offset2 > 0) :
    (rpgQuery region filter keyword sort direction contest award famer count offset).1
      = (rpgQuery region filter keyword2 sort direction contest2 award2 famer2 count2 offset2).1
    ∧ (∀ a ∈ (rpgQuery region filter keyword sort direction contest award famer count offset).2,
        a ∈ [Arg.str keyword, Arg.int contest, Arg.int award, Arg.int famer,
              Arg.int count, Arg.int offset])
    ∧ (∀ db db2 : DB,
        db.QueryRpg
            (rpgQuery region filter keyword sort direction contest award famer count offset).1
            (rpgQuery region filter keyword sort direction contest award famer count offset).2
          = db2.QueryRpg
            (rpgQuery region filter keyword sort direction contest award famer count offset).1
            (rpgQuery region filter keyword sort direction contest award famer count offset).2 →
        getRpgListEntries FormatFloat db region filter keyword sort direction
            contest award famer count offset
          = getRpgListEntries FormatFloat db2 region filter keyword sort direction
            contest award famer count offset)
    ∧ (publicQuery sid region).1 = (publicQuery sid2 region).1
    ∧ (publicQuery sid region).2 = [Arg.int sid]
    ∧ (∀ db db2 : DB,
        db.QueryRowCount (publicQuery sid region).1 (publicQuery sid region).2
          = db2.QueryRowCount (publicQuery sid region).1 (publicQuery sid region).2 →
        getRpgPublic db sid region = getRpgPublic db2 sid region) := by
  refine ⟨?_, ?_, ?_, rfl, rfl, ?_⟩
  · rw [rpgQuery_eq, rpgQuery_eq,
      filterClause_text_congr filter keyword keyword2 contest award famer contest2 award2 famer2
        hc ha hf,
      pageClause_text_congr count offset count2 offset2 hn ho]
  · intro a hmem
    rw [rpgQuery_eq] at hmem
    unfold filterClause filterStep pageClause pageStep at hmem
    simp only [List.mem_cons, List.mem_singleton, List.mem_append]
    split_ifs at hmem <;> simp at hmem <;> aesop
  · intro db db2 hq
    unfold getRpgListEntries
    simp only [hq]
  · intro db db2 hq
    unfold getRpgPublic
    simp only [hq]

theorem values_only_bound_witness :
    (rpgQuery "US" "" "a" "updt" "asc" 5 (-1) 0 10 0).1
      = (rpgQuery "US" "" "b" "updt" "asc" 7 (-1) 0 20 (-3)).1
    ∧ (∀ a ∈ (rpgQuery "US" "" "a" "updt" "asc" 5 (-1) 0 10 0).2,
        a ∈ [Arg.str "a", Arg.int 5, Arg.int (-1), Arg.int 0, Arg.int 10, Arg.int 0])
    ∧ (∀ db db2 : DB,
        db.QueryRpg
            (rpgQuery "US" "" "a" "updt" "asc" 5 (-1) 0 10 0).1
            (rpgQuery "US" "" "a" "updt" "asc" 5 (-1) 0 10 0).2
          = db2.QueryRpg
            (rpgQuery "US" "" "a" "updt" "asc" 5 (-1) 0 10 0).1
            (rpgQuery "US" "" "a" "updt" "asc" 5 (-1) 0 10 0).2 →
        getRpgListEntries (fun _ => "") db "US" "" "a" "updt" "asc" 5 (-1) 0 10 0
          = getRpgListEntries (fun _ => "") db2 "US" "" "a" "updt" "asc" 5 (-1) 0 10 0)
    ∧ (publicQuery 1 "US").1 = (publicQuery 2 "US").1
    ∧ (publicQuery 1 "US").2 = [Arg.int 1]
    ∧ (∀ db db2 : DB,
        db.QueryRowCount (publicQuery 1 "US").1 (publicQuery 1 "US").2
          = db2.QueryRowCount (publicQuery 1 "US").1 (publicQuery 1 "US").2 →
        getRpgPublic db 1 "US" = getRpgPublic db2 1 "US") :=
  values_only_bound (fun _ => "") "US" "" "updt" "asc" "a" "b" 5 (-1) 0 10 0 7 (-1) 0 20 (-3) 1 2
    (by decide) (by decide) (by decide) (by decide) (by decide)

theorem tableStep_closed (region : String) :
    (tableStep region).1 = "SELECT * FROM" ++ " games_jp"
      ∨ (tableStep region).1 = "SELECT * FROM" ++ " games_us" := by
  unfold tableStep
  split_ifs
  · exact Or.inl rfl
  · exact Or.inr rfl

theorem filterClause_closed (filter keyword : String) (contest award famer : Int)
    (hf : filter = "" ∨ filter ∈ filterColumns) :
    (filterClause filter keyword contest award famer).1 ∈ closedWhere := by
  rcases hf with hf | hf
  · subst hf
    by_cases hc : contest = 0
    · subst hc
      by_cases ha : award = -1
      · subst ha
        by_cases hm : famer = 0
        · subst hm
          rw [filterClause_none]
          decide
        · rw [filterClause_famer _ _ hm]
          dsimp only
          decide
      · rw [filterClause_award _ _ _ ha]
        dsimp only
        decide
    · rw [filterClause_contest _ _ _ _ hc]
      dsimp only
      decide
  · simp only [filterColumns, List.mem_cons, List.mem_singleton, List.not_mem_nil, or_false] at hf
    rcases hf with hf | hf | hf | hf <;> subst hf <;>
      rw [filterClause_filter _ _ _ _ _ (by decide)] <;> dsimp only <;> decide

theorem sortClause_closed (sort direction : String)
    (hs : sort = "" ∨ (sort ∈ sortColumns ∧ direction ∈ directions)) :
    (sortClause sort direction).1 ∈ closedOrder := by
  rcases hs with hs | ⟨hs, hd⟩
  · subst hs
    have h : sortClause "" direction = ("", []) := by
      unfold sortClause sortStep
      simp
    rw [h]
    decide
  · simp only [sortColumns, directions, List.mem_cons, List.mem_singleton, List.not_mem_nil,
      or_false] at hs hd
    rcases hs with hs | hs | hs <;> rcases hd with hd | hd <;> subst hs <;> subst hd <;> decide

theorem pageClause_closed (count offset : Int) :
    (pageClause count offset).1 ∈ closedLimit := by
  rcases le_or_lt count 0 with hc | hc
  · rw [pageClause_none _ _ hc]
    decide
  · rcases le_or_lt offset 0 with ho | ho
    · rw [pageClause_limit _ _ hc ho]
      dsimp only
      decide
    · rw [pageClause_both _ _ hc ho]
      dsimp only
      decide

/-- C6 as stated fails: a filter outside the enumeration is concatenated
into the query text as it is. -/
theorem closed_enumeration_counterexample :
    (rpgQuery "" "1=1 OR title" "" "" "" 0 (-1) 0 0 0).1
        = "SELECT * FROM games_jp WHERE 1=1 OR title LIKE CONCAT('%', ?, '%')"
      ∧ (rpgQuery "" "1=1 OR title" "" "" "" 0 (-1) 0 0 0).1 ∉ closedQueries := by
  decide

/-- C6, amended: `getRpgListEntries` copies the filter column, the sort
column and the direction into the text unchecked; when the caller passes a
filter that is empty or one of title, uname, suid, password and a sort that
is empty or one of updt, dlcount, reviewave together with a direction asc
or desc, the query text is one of the closed set of texts built from the
enumerated identifiers only. -/
theorem closed_enumeration_of_valid (region filter keyword sort direction : String)
    (contest award famer count offset : Int)
    (hf : filter = "" ∨ filter ∈ filterColumns)
    (hs : sort = "" ∨ (sort ∈ sortColumns ∧ direction ∈ directions)) :
    (rpgQuery region filter keyword sort direction contest award famer count offset).1
      ∈ closedQueries := by
  rw [rpgQuery_eq]
  have ht := tableStep_closed region
  have hw := filterClause_closed filter keyword contest award famer hf
  have ho := sortClause_closed sort direction hs
  have hl := pageClause_closed count offset
  simp only [closedQueries, List.mem_flatMap, List.mem_map]
  rcases ht with ht | ht
  · exact ⟨" games_jp", by decide, _, hw, _, ho, _, hl, by rw [ht]⟩
  · exact ⟨" games_us", by decide, _, hw, _, ho, _, hl, by rw [ht]⟩

theorem closed_enumeration_of_valid_witness :
    (rpgQuery "JPN" "uname" "bob" "dlcount" "desc" 0 (-1) 0 10 5).1 ∈ closedQueries :=
  closed_enumeration_of_valid "JPN" "uname" "bob" "dlcount" "desc" 0 (-1) 0 10 5
    (by decide) (by decide)

/-- C7: in all three operations the JP table is used exactly when region is
`JPN` or the empty string, and the US table for every other value, such as
`jpn`, `JP` or ` JPN`; resolution is a total function without error. -/
theorem region_partition (region : String) :
    ((region = "JPN" ∨ region = "") →
        contestQuery region = "SELECT * FROM contests_jp"
        ∧ (tableStep region).1 = "SELECT * FROM games_jp"
        ∧ ∀ sid : Int, (publicQuery sid region).1 = "SELECT COUNT(*) FROM games_jp WHERE sid = ?")
    ∧ (¬ (region = "JPN" ∨ region = "") →
        contestQuery region = "SELECT * FROM contests_us"
        ∧ (tableStep region).1 = "SELECT * FROM games_us"
        ∧ ∀ sid : Int, (publicQuery sid region).1 = "SELECT COUNT(*) FROM games_us WHERE sid = ?")
    ∧ (contestQuery region = "SELECT * FROM contests_jp" ↔ (region = "JPN" ∨ region = ""))
    ∧ ((tableStep region).1 = "SELECT * FROM games_jp" ↔ (region = "JPN" ∨ region = ""))
    ∧ (∀ sid : Int, (publicQuery sid region).1 = "SELECT COUNT(*) FROM games_jp WHERE sid = ?"
        ↔ (region = "JPN" ∨ region = ""))
    ∧ (∀ (filter keyword sort direction : String) (contest award famer count offset : Int),
        (rpgQuery region filter keyword sort direction contest award famer count offset).1
          = (tableStep region).1 ++ (filterClause filter keyword contest award famer).1
              ++ (sortClause sort direction).1 ++ (pageClause count offset).1)
    ∧ (∀ db : DB, getContestListEntries db region
        = match db.QueryContest (contestQuery region) with
          | Except.error err => (none, some err)
          | Except.ok results => contestLoop results.rows 0 [])
    ∧ ["jpn", "JP", " JPN"].map contestQuery
        = ["SELECT * FROM contests_us", "SELECT * FROM contests_us", "SELECT * FROM contests_us"]
    ∧ ["jpn", "JP", " JPN"].map (fun r => (tableStep r).1)
        = ["SELECT * FROM games_us", "SELECT * FROM games_us", "SELECT * FROM games_us"]
    ∧ ["jpn", "JP", " JPN"].map (fun r => (publicQuery 0 r).1)
        = ["SELECT COUNT(*) FROM games_us WHERE sid = ?",
           "SELECT COUNT(*) FROM games_us WHERE sid = ?",
           "SELECT COUNT(*) FROM games_us WHERE sid = ?"] := by
  have hjp : (region = "JPN" ∨ region = "") →
      contestQuery region = "SELECT * FROM contests_jp"
      ∧ (tableStep region).1 = "SELECT * FROM games_jp"
      ∧ ∀ sid : Int, (publicQuery sid region).1
          = "SELECT COUNT(*) FROM games_jp WHERE sid = ?" := by
    intro h
    unfold contestQuery tableStep publicQuery
    simp only [h, if_true]
    exact ⟨by decide, by decide, fun _ => by decide⟩
  have hus : ¬ (region = "JPN" ∨ region = "") →
      contestQuery region = "SELECT * FROM contests_us"
      ∧ (tableStep region).1 = "SELECT * FROM games_us"
      ∧ ∀ sid : Int, (publicQuery sid region).1
          = "SELECT COUNT(*) FROM games_us WHERE sid = ?" := by
    intro h
    unfold contestQuery tableStep publicQuery
    simp only [h, if_false]
    exact ⟨by decide, by decide, fun _ => by decide⟩
  refine ⟨hjp, hus, ?_, ?_, ?_, ?_, ?_, by decide, by decide, by decide⟩
  · constructor
    · intro h
      by_contra hn
      rw [(hus hn).1] at h
      exact absurd h (by decide)
    · exact fun h => (hjp h).1
  · constructor
    · intro h
      by_contra hn
      rw [(hus hn).2.1] at h
      exact absurd h (by decide)
    · exact fun h => (hjp h).2.1
  · intro sid
    constructor
    · intro h
      by_contra hn
      rw [(hus hn).2.2 sid] at h
      exact absurd h (by decide)
    · exact fun h => (hjp h).2.2 sid
  · intro filter keyword sort direction contest award famer count offset
    rw [rpgQuery_eq]
  · intro db
    rfl

theorem setGenre_of_numeral (e : RpgListEntry) (tok : String) (k : Nat)
    (h1 : 1 ≤ k) (h34 : k ≤ 34)
    (h : tok = "1" ∨ tok = "2" ∨ tok = "3" ∨ tok = "4" ∨ tok = "5" ∨ tok = "6" ∨ tok = "7" ∨ tok = "8" ∨ tok = "9" ∨ tok = "10" ∨ tok = "11" ∨ tok = "12" ∨ tok = "13" ∨ tok = "14" ∨ tok = "15" ∨ tok = "16" ∨ tok = "17" ∨ tok = "18" ∨ tok = "19" ∨ tok = "20" ∨ tok = "21" ∨ tok = "22" ∨ tok = "23" ∨ tok = "24" ∨ tok = "25" ∨ tok = "26" ∨ tok = "27" ∨ tok = "28" ∨ tok = "29" ∨ tok = "30" ∨ tok = "31" ∨ tok = "32" ∨ tok = "33" ∨ tok = "34") :
    (setGenre e tok).Genre k = if tok = Itoa k then "1" else e.Genre k := by
  rcases h with rfl | rfl | rfl | rfl | rfl | rfl | rfl | rfl | rfl | rfl | rfl | rfl | rfl | rfl | rfl | rfl | rfl | rfl | rfl | rfl | rfl | rfl | rfl | rfl | rfl | rfl | rfl | rfl | rfl | rfl | rfl | rfl | rfl | rfl <;>
    interval_cases k <;> rfl

theorem setGenre_of_other (e : RpgListEntry) (tok : String)
    (h : ¬ (tok = "1" ∨ tok = "2" ∨ tok = "3" ∨ tok = "4" ∨ tok = "5" ∨ tok = "6" ∨ tok = "7" ∨ tok = "8" ∨ tok = "9" ∨ tok = "10" ∨ tok = "11" ∨ tok = "12" ∨ tok = "13" ∨ tok = "14" ∨ tok = "15" ∨ tok = "16" ∨ tok = "17" ∨ tok = "18" ∨ tok = "19" ∨ tok = "20" ∨ tok = "21" ∨ tok = "22" ∨ tok = "23" ∨ tok = "24" ∨ tok = "25" ∨ tok = "26" ∨ tok = "27" ∨ tok = "28" ∨ tok = "29" ∨ tok = "30" ∨ tok = "31" ∨ tok = "32" ∨ tok = "33" ∨ tok = "34")) :
    setGenre e tok = e := by
  simp only [not_or] at h
  obtain ⟨h1, h2, h3, h4, h5, h6, h7, h8, h9, h10, h11, h12, h13, h14, h15, h16, h17, h18, h19, h20, h21, h22, h23, h24, h25, h26, h27, h28, h29, h30, h31, h32, h33, h34⟩ := h
  unfold setGenre
  simp only [h1, h2, h3, h4, h5, h6, h7, h8, h9, h10, h11, h12, h13, h14, h15, h16, h17, h18, h19, h20, h21, h22, h23, h24, h25, h26, h27, h28, h29, h30, h31, h32, h33, h34, if_false]

theorem setGenre_Genre (e : RpgListEntry) (tok : String) (k : Nat) (h1 : 1 ≤ k) (h34 : k ≤ 34) :
    (setGenre e tok).Genre k = if tok = Itoa k then "1" else e.Genre k := by
  by_cases h : tok = "1" ∨ tok = "2" ∨ tok = "3" ∨ tok = "4" ∨ tok = "5" ∨ tok = "6" ∨ tok = "7" ∨ tok = "8" ∨ tok = "9" ∨ tok = "10" ∨ tok = "11" ∨ tok = "12" ∨ tok = "13" ∨ tok = "14" ∨ tok = "15" ∨ tok = "16" ∨ tok = "17" ∨ tok = "18" ∨ tok = "19" ∨ tok = "20" ∨ tok = "21" ∨ tok = "22" ∨ tok = "23" ∨ tok = "24" ∨ tok = "25" ∨ tok = "26" ∨ tok = "27" ∨ tok = "28" ∨ tok = "29" ∨ tok = "30" ∨ tok = "31" ∨ tok = "32" ∨ tok = "33" ∨ tok = "34"
  · exact setGenre_of_numeral e tok k h1 h34 h
  · rw [setGenre_of_other e tok h, if_neg]
    intro hk
    apply h
    rw [hk]
    interval_cases k <;> decide

theorem foldl_setGenre_Genre (toks : List String) (e : RpgListEntry) (k : Nat)
    (h1 : 1 ≤ k) (h34 : k ≤ 34) :
    (toks.foldl setGenre e).Genre k = if Itoa k ∈ toks then "1" else e.Genre k := by
  induction toks generalizing e with
  | nil => simp
  | cons t ts ih =>
    rw [List.foldl_cons, ih, setGenre_Genre e t k h1 h34]
    by_cases hm : Itoa k ∈ ts
    · simp [hm]
    · by_cases ht : t = Itoa k
      · simp [ht]
      · have ht2 : ¬ Itoa k = t := fun h => ht h.symm
        simp [hm, ht, ht2]

theorem setGenre_unknown (e : RpgListEntry) (tok : String)
    (hne : ∀ j : Nat, 1 ≤ j → j ≤ 34 → tok ≠ Itoa j) : setGenre e tok = e := by
  apply setGenre_of_other
  intro h
  rcases h with h | h | h | h | h | h | h | h | h | h | h | h | h | h | h | h | h | h | h | h | h | h | h | h | h | h | h | h | h | h | h | h | h | h
  · exact hne 1 (by decide) (by decide) (by rw [h]; decide)
  · exact hne 2 (by decide) (by decide) (by rw [h]; decide)
  · exact hne 3 (by decide) (by decide) (by rw [h]; decide)
  · exact hne 4 (by decide) (by decide) (by rw [h]; decide)
  · exact hne 5 (by decide) (by decide) (by rw [h]; decide)
  · exact hne 6 (by decide) (by decide) (by rw [h]; decide)
  · exact hne 7 (by decide) (by decide) (by rw [h]; decide)
  · exact hne 8 (by decide) (by decide) (by rw [h]; decide)
  · exact hne 9 (by decide) (by decide) (by rw [h]; decide)
  · exact hne 10 (by decide) (by decide) (by rw [h]; decide)
  · exact hne 11 (by decide) (by decide) (by rw [h]; decide)
  · exact hne 12 (by decide) (by decide) (by rw [h]; decide)
  · exact hne 13 (by decide) (by decide) (by rw [h]; decide)
  · exact hne 14 (by decide) (by decide) (by rw [h]; decide)
  · exact hne 15 (by decide) (by decide) (by rw [h]; decide)
  · exact hne 16 (by decide) (by decide) (by rw [h]; decide)
  · exact hne 17 (by decide) (by decide) (by rw [h]; decide)
  · exact hne 18 (by decide) (by decide) (by rw [h]; decide)
  · exact hne 19 (by decide) (by decide) (by rw [h]; decide)
  · exact hne 20 (by decide) (by decide) (by rw [h]; decide)
  · exact hne 21 (by decide) (by decide) (by rw [h]; decide)
  · exact hne 22 (by decide) (by decide) (by rw [h]; decide)
  · exact hne 23 (by decide) (by decide) (by rw [h]; decide)
  · exact hne 24 (by decide) (by decide) (by rw [h]; decide)
  · exact hne 25 (by decide) (by decide) (by rw [h]; decide)
  · exact hne 26 (by decide) (by decide) (by rw [h]; decide)
  · exact hne 27 (by decide) (by decide) (by rw [h]; decide)
  · exact hne 28 (by decide) (by decide) (by rw [h]; decide)
  · exact hne 29 (by decide) (by decide) (by rw [h]; decide)
  · exact hne 30 (by decide) (by decide) (by rw [h]; decide)
  · exact hne 31 (by decide) (by decide) (by rw [h]; decide)
  · exact hne 32 (by decide) (by decide) (by rw [h]; decide)
  · exact hne 33 (by decide) (by decide) (by rw [h]; decide)
  · exact hne 34 (by decide) (by decide) (by rw [h]; decide)

/-- C8: for every stored genre string and every k from 1 to 34, the field
`Genre<k>` of the mapped entry is `1` when the decimal numeral of k is one
of the comma-separated tokens of the genre string and empty otherwise; a
token outside the enumeration changes nothing; for `3,17,34,99` exactly the
flags 3, 17 and 34 are set. -/
theorem genre_decode (FormatFloat : Float64 → String) (r : RpgRow) (k : Nat)
    (h1 : 1 ≤ k) (h34 : k ≤ 34) :
    (rpgEntry FormatFloat r).Genre k = (if Itoa k ∈ Split r.genre then "1" else "")
    ∧ (r.genre = "3,17,34,99" →
        (rpgEntry FormatFloat r).Genre k = (if k = 3 ∨ k = 17 ∨ k = 34 then "1" else ""))
    ∧ (∀ (e : RpgListEntry) (tok : String),
        (∀ j : Nat, 1 ≤ j → j ≤ 34 → tok ≠ Itoa j) → setGenre e tok = e) := by
  have main : (rpgEntry FormatFloat r).Genre k
      = (if Itoa k ∈ Split r.genre then "1" else "") := by
    unfold rpgEntry
    rw [foldl_setGenre_Genre _ _ k h1 h34]
    congr 1
    interval_cases k <;> rfl
  refine ⟨main, ?_, setGenre_unknown⟩
  intro hg
  rw [main, hg]
  interval_cases k <;> decide

theorem genre_decode_witness :
    (rpgEntry (fun _ => "0.00000") (sampleRpgRow 1 "3,17,34,99")).Genre 17
        = (if Itoa 17 ∈ Split (sampleRpgRow 1 "3,17,34,99").genre then "1" else "")
    ∧ ((sampleRpgRow 1 "3,17,34,99").genre = "3,17,34,99" →
        (rpgEntry (fun _ => "0.00000") (sampleRpgRow 1 "3,17,34,99")).Genre 17
          = (if (17 : Nat) = 3 ∨ (17 : Nat) = 17 ∨ (17 : Nat) = 34 then "1" else ""))
    ∧ (∀ (e : RpgListEntry) (tok : String),
        (∀ j : Nat, 1 ≤ j → j ≤ 34 → tok ≠ Itoa j) → setGenre e tok = e) :=
  genre_decode (fun _ => "0.00000") (sampleRpgRow 1 "3,17,34,99") 17 (by decide) (by decide)

/-- C9: the review window of a mapped contest entry is taken from the
application window columns: `ReviewStart` is the formatted apply-start and
`ReviewEnd` the formatted apply-end, so two rows that differ only in their
review-start and review-end columns map to the same entry. -/
theorem review_window_from_apply :
    (∀ r : ContestRow,
        (contestEntry r).ReviewStart = r.applyStart.Format
        ∧ (contestEntry r).ReviewEnd = r.applyEnd.Format)
    ∧ contestRowA ≠ contestRowB
    ∧ contestEntry contestRowA = contestEntry contestRowB
    ∧ (contestEntry contestRowA).ReviewStart = "2023-01-01 00:00:00"
    ∧ contestRowA.reviewStart.Format = "2023-02-01 00:00:00"
    ∧ (contestEntry contestRowA).ReviewEnd = "2023-01-31 23:59:59"
    ∧ contestRowA.reviewEnd.Format = "2023-02-28 23:59:59" := by
  refine ⟨fun r => ⟨rfl, rfl⟩, by decide, by decide, by decide, by decide, by decide, by decide⟩

theorem digitChar_toNat (d : Nat) (h : d < 10) : (digitChar d).toNat - 48 = d := by
  interval_cases d <;> rfl

theorem foldl_digitsAux (fuel n : Nat) (acc : List Char) (h : n < fuel) :
    (digitsAux fuel n acc).foldl (fun a c => 10 * a + (c.toNat - 48)) 0
      = acc.foldl (fun a c => 10 * a + (c.toNat - 48)) n := by
  induction fuel generalizing n acc with
  | zero => omega
  | succ fuel ih =>
    unfold digitsAux
    split_ifs with h10
    · simp [List.foldl_cons, digitChar_toNat n h10]
    · rw [ih (n / 10) _ (by omega)]
      simp only [List.foldl_cons]
      rw [digitChar_toNat (n % 10) (Nat.mod_lt _ (by decide))]
      congr 1
      omega

theorem numeralVal_natNumeral (n : Nat) : numeralVal (natNumeral n) = n := by
  unfold numeralVal natNumeral
  rw [foldl_digitsAux (n + 1) n [] (Nat.lt_succ_self n)]
  rfl

theorem Itoa_natCast (n : Nat) : Itoa (n : Int) = String.mk (natNumeral n) := by
  unfold Itoa
  simp

theorem Itoa_natCast_inj (i j : Nat) (h : Itoa (i : Int) = Itoa (j : Int)) : i = j := by
  rw [Itoa_natCast, Itoa_natCast] at h
  have h2 : natNumeral i = natNumeral j := by
    injection h
  rw [← numeralVal_natNumeral i, ← numeralVal_natNumeral j, h2]

theorem GoMap.set_fresh {V : Type} (m : GoMap V) (k : String) (v : V) (h : k ∉ m.keys) :
    m.set k v = m ++ [(k, v)] := by
  induction m with
  | nil => rfl
  | cons p rest ih =>
    obtain ⟨k0, v0⟩ := p
    simp only [GoMap.keys, List.map_cons, List.mem_cons, not_or] at h
    have hne : ¬ k0 = k := fun e => h.1 e.symm
    simp only [GoMap.set, hne, if_false, List.cons_append]
    rw [ih h.2]

theorem rowLoop_ok {α V : Type} (entry : α → V) (rows : List α) (cnt : Nat) (m : GoMap V)
    (hm : ∀ k ∈ m.keys, ∃ i : Nat, i < cnt ∧ k = Itoa (i : Int)) :
    rowLoop entry (rows.map Except.ok) cnt m
      = (some (m ++ (rows.enumFrom cnt).map (fun p => (Itoa (p.1 : Int), entry p.2))), none) := by
  induction rows generalizing cnt m with
  | nil => simp [rowLoop]
  | cons r rs ih =>
    have hfresh : Itoa (cnt : Int) ∉ m.keys := by
      intro hk
      obtain ⟨i, hi, he⟩ := hm _ hk
      have := Itoa_natCast_inj _ _ he
      omega
    simp only [List.map_cons, rowLoop]
    rw [GoMap.set_fresh m _ _ hfresh, ih]
    · simp [List.enumFrom_cons]
    · intro k hk
      simp only [GoMap.keys, List.map_append, List.map_cons, List.map_nil, List.mem_append,
        List.mem_singleton] at hk
      rcases hk with hk | hk
      · obtain ⟨i, hi, he⟩ := hm k hk
        exact ⟨i, by omega, he⟩
      · exact ⟨cnt, by omega, hk⟩

theorem keys_enumFrom {α V : Type} (entry : α → V) (rows : List α) (cnt : Nat) :
    GoMap.keys ((rows.enumFrom cnt).map (fun p => (Itoa (p.1 : Int), entry p.2)))
      = (List.range' cnt rows.length).map (fun i => Itoa (i : Int)) := by
  induction rows generalizing cnt with
  | nil => rfl
  | cons r rs ih =>
    have := ih (cnt + 1)
    simp only [GoMap.keys, List.map_map] at this
    simp [GoMap.keys, List.enumFrom_cons, List.range'_succ, this]

theorem get?_enumFrom {α V : Type} (entry : α → V) (rows : List α) (cnt i : Nat) :
    GoMap.get? ((rows.enumFrom cnt).map (fun p => (Itoa (p.1 : Int), entry p.2)))
        (Itoa ((cnt + i : Nat) : Int))
      = (rows[i]?).map entry := by
  induction rows generalizing cnt i with
  | nil => simp [GoMap.get?]
  | cons r rs ih =>
    cases i with
    | zero => simp [List.enumFrom_cons, GoMap.get?]
    | succ i =>
      have hne : ¬ Itoa (cnt : Int) = Itoa ((cnt + (i + 1) : Nat) : Int) := by
        intro he
        have := Itoa_natCast_inj _ _ he
        omega
      have h2 := ih (cnt + 1) i
      have e : cnt + 1 + i = cnt + (i + 1) := by omega
      rw [e] at h2
      simp only [List.enumFrom_cons, List.map_cons, GoMap.get?, hne, if_false,
        List.getElem?_cons_succ]
      exact h2

theorem rpgLoop_eq_rowLoop (FormatFloat : Float64 → String)
    (rs : List (Except Error RpgRow)) (cnt : Nat) (m : GoMap RpgListEntry) :
    rpgLoop FormatFloat rs cnt m = rowLoop (rpgEntry FormatFloat) rs cnt m := by
  induction rs generalizing cnt m with
  | nil => rfl
  | cons r rs ih =>
    cases r with
    | error e => rfl
    | ok row => simp only [rpgLoop, rowLoop, ih]

theorem contestLoop_eq_rowLoop
    (rs : List (Except Error ContestRow)) (cnt : Nat) (m : GoMap ContestListEntry) :
    contestLoop rs cnt m = rowLoop contestEntry rs cnt m := by
  induction rs generalizing cnt m with
  | nil => rfl
  | cons r rs ih =>
    cases r with
    | error e => rfl
    | ok row => simp only [contestLoop, rowLoop, ih]

theorem rowLoop_positional {α V : Type} (entry : α → V) (rows : List α) :
    ∃ m : GoMap V,
      rowLoop entry (rows.map Except.ok) 0 [] = (some m, none)
      ∧ m.length = rows.length
      ∧ m.keys = (List.range rows.length).map (fun i => Itoa (i : Int))
      ∧ ∀ i : Nat, m.get? (Itoa (i : Int)) = (rows[i]?).map entry := by
  refine ⟨(rows.enumFrom 0).map (fun p => (Itoa (p.1 : Int), entry p.2)), ?_, ?_, ?_, ?_⟩
  · rw [rowLoop_ok entry rows 0 [] (by intro k hk; simp [GoMap.keys] at hk)]
    simp
  · simp
  · rw [keys_enumFrom, List.range_eq_range']
  · intro i
    have := get?_enumFrom entry rows 0 i
    simpa using this

/-- C10: when the store returns n rows that all decode, `getRpgListEntries`
and `getContestListEntries` return, without error, a collection of exactly n
entries whose keys are the decimal texts of 0, 1, ..., n-1, the entry under
the text of i being the mapping of the i-th row; the keys of distinct
positions are distinct and are fixed by n alone, whatever the columns hold. -/
theorem positional_keys (FormatFloat : Float64 → String) (db : DB)
    (region filter keyword sort direction : String)
    (contest award famer count offset : Int)
    (rows : List RpgRow) (crows : List ContestRow) (e1 e2 : Option Error)
    (hq : db.QueryRpg
        (rpgQuery region filter keyword sort direction contest award famer count offset).1
        (rpgQuery region filter keyword sort direction contest award famer count offset).2
      = Except.ok ⟨rows.map Except.ok, e1⟩)
    (hc : db.QueryContest (contestQuery region) = Except.ok ⟨crows.map Except.ok, e2⟩) :
    (∃ m : GoMap RpgListEntry,
      getRpgListEntries FormatFloat db region filter keyword sort direction
          contest award famer count offset = (some m, none)
      ∧ m.length = rows.length
      ∧ m.keys = (List.range rows.length).map (fun i => Itoa (i : Int))
      ∧ ∀ i : Nat, m.get? (Itoa (i : Int)) = (rows[i]?).map (rpgEntry FormatFloat))
    ∧ (∃ m : GoMap ContestListEntry,
      getContestListEntries db region = (some m, none)
      ∧ m.length = crows.length
      ∧ m.keys = (List.range crows.length).map (fun i => Itoa (i : Int))
      ∧ ∀ i : Nat, m.get? (Itoa (i : Int)) = (crows[i]?).map contestEntry)
    ∧ (∀ i j : Nat, Itoa (i : Int) = Itoa (j : Int) → i = j) := by
  refine ⟨?_, ?_, Itoa_natCast_inj⟩
  · obtain ⟨m, hm, hrest⟩ := rowLoop_positional (rpgEntry FormatFloat) rows
    refine ⟨m, ?_, hrest⟩
    unfold getRpgListEntries
    simp only [hq]
    rw [rpgLoop_eq_rowLoop, hm]
  · obtain ⟨m, hm, hrest⟩ := rowLoop_positional contestEntry crows
    refine ⟨m, ?_, hrest⟩
    unfold getContestListEntries
    simp only [hc]
    rw [contestLoop_eq_rowLoop, hm]

theorem positional_keys_witness :
    (∃ m : GoMap RpgListEntry,
      getRpgListEntries (fun _ => "0.00000")
          (sampleDB [sampleRpgRow 7 "3,17", sampleRpgRow 7 "99"] [contestRowA, contestRowB])
          "JPN" "" "" "" "" 0 (-1) 0 0 0 = (some m, none)
      ∧ m.length = [sampleRpgRow 7 "3,17", sampleRpgRow 7 "99"].length
      ∧ m.keys = (List.range [sampleRpgRow 7 "3,17", sampleRpgRow 7 "99"].length).map
          (fun i => Itoa (i : Int))
      ∧ ∀ i : Nat, m.get? (Itoa (i : Int))
          = ([sampleRpgRow 7 "3,17", sampleRpgRow 7 "99"][i]?).map
              (rpgEntry (fun _ => "0.00000")))
    ∧ (∃ m : GoMap ContestListEntry,
      getContestListEntries
          (sampleDB [sampleRpgRow 7 "3,17", sampleRpgRow 7 "99"] [contestRowA, contestRowB])
          "JPN" = (some m, none)
      ∧ m.length = [contestRowA, contestRowB].length
      ∧ m.keys = (List.range [contestRowA, contestRowB].length).map (fun i => Itoa (i : Int))
      ∧ ∀ i : Nat, m.get? (Itoa (i : Int)) = ([contestRowA, contestRowB][i]?).map contestEntry)
    ∧ (∀ i j : Nat, Itoa (i : Int) = Itoa (j : Int) → i = j) :=
  positional_keys (fun _ => "0.00000")
    (sampleDB [sampleRpgRow 7 "3,17", sampleRpgRow 7 "99"] [contestRowA, contestRowB])
    "JPN" "" "" "" "" 0 (-1) 0 0 0
    [sampleRpgRow 7 "3,17", sampleRpgRow 7 "99"] [contestRowA, contestRowB] none none rfl rfl

theorem rowLoop_error {α V : Type} (entry : α → V) (pre : List α) (err : Error)
    (post : List (Except Error α)) (cnt : Nat) (m : GoMap V) :
    rowLoop entry (pre.map Except.ok ++ Except.error err :: post) cnt m = (none, some err) := by
  induction pre generalizing cnt m with
  | nil => rfl
  | cons r rs ih =>
    simp only [List.map_cons, List.cons_append, rowLoop]
    exact ih _ _

theorem rows_ok_or_error {α : Type} (rs : List (Except Error α)) :
    (∃ rows : List α, rs = rows.map Except.ok)
      ∨ (∃ (pre : List α) (err : Error) (post : List (Except Error α)),
          rs = pre.map Except.ok ++ Except.error err :: post) := by
  induction rs with
  | nil => exact Or.inl ⟨[], rfl⟩
  | cons r rs ih =>
    cases r with
    | error e => exact Or.inr ⟨[], e, rs, rfl⟩
    | ok row =>
      rcases ih with ⟨rows, h⟩ | ⟨pre, err, post, h⟩
      · exact Or.inl ⟨row :: rows, by rw [h]; rfl⟩
      · exact Or.inr ⟨row :: pre, err, post, by rw [h]; rfl⟩

theorem rowLoop_total {α V : Type} (entry : α → V) (rs : List (Except Error α)) :
    (∃ m : GoMap V, rowLoop entry rs 0 [] = (some m, none))
      ∨ (∃ err : Error, rowLoop entry rs 0 [] = (none, some err)) := by
  rcases rows_ok_or_error rs with ⟨rows, h⟩ | ⟨pre, err, post, h⟩
  · obtain ⟨m, hm, _⟩ := rowLoop_positional entry rows
    exact Or.inl ⟨m, by rw [h, hm]⟩
  · exact Or.inr ⟨err, by rw [h, rowLoop_error]⟩

/-- C11: the two listings return no collection and the error when the query
fails and when a row fails to decode, even after earlier rows were mapped;
but when the cursor breaks off during iteration, `results.Next()` returning
false with `results.Err()` set, they return the rows mapped so far with a
nil error: neither function reads `results.Err()`, so a partial collection
is exposed without an error. -/
theorem partial_result_when_iteration_fails (FormatFloat : Float64 → String) (db : DB)
    (region filter keyword sort direction : String)
    (contest award famer count offset : Int) :
    getRpgListEntries FormatFloat
          (cursorDB ⟨[Except.ok (sampleRpgRow 1 "3")], some ⟨"connection lost"⟩⟩ ⟨[], none⟩)
          region filter keyword sort direction contest award famer count offset
        = (some [("0", rpgEntry FormatFloat (sampleRpgRow 1 "3"))], none)
    ∧ getContestListEntries
          (cursorDB ⟨[], none⟩ ⟨[Except.ok contestRowA], some ⟨"connection lost"⟩⟩) region
        = (some [("0", contestEntry contestRowA)], none)
    ∧ (∀ (rows : List RpgRow) (e : Option Error),
        db.QueryRpg
            (rpgQuery region filter keyword sort direction contest award famer count offset).1
            (rpgQuery region filter keyword sort direction contest award famer count offset).2
          = Except.ok ⟨rows.map Except.ok, e⟩ →
        ∃ m : GoMap RpgListEntry,
          getRpgListEntries FormatFloat db region filter keyword sort direction
              contest award famer count offset = (some m, none)
          ∧ m.length = rows.length)
    ∧ (∀ (rows : List ContestRow) (e : Option Error),
        db.QueryContest (contestQuery region) = Except.ok ⟨rows.map Except.ok, e⟩ →
        ∃ m : GoMap ContestListEntry,
          getContestListEntries db region = (some m, none) ∧ m.length = rows.length)
    ∧ (∀ err : Error,
        db.QueryRpg
            (rpgQuery region filter keyword sort direction contest award famer count offset).1
            (rpgQuery region filter keyword sort direction contest award famer count offset).2
          = Except.error err →
        getRpgListEntries FormatFloat db region filter keyword sort direction
            contest award famer count offset = (none, some err))
    ∧ (∀ (pre : List RpgRow) (err : Error) (post : List (Except Error RpgRow))
        (e : Option Error),
        db.QueryRpg
            (rpgQuery region filter keyword sort direction contest award famer count offset).1
            (rpgQuery region filter keyword sort direction contest award famer count offset).2
          = Except.ok ⟨pre.map Except.ok ++ Except.error err :: post, e⟩ →
        getRpgListEntries FormatFloat db region filter keyword sort direction
            contest award famer count offset = (none, some err))
    ∧ (∀ err : Error, db.QueryContest (contestQuery region) = Except.error err →
        getContestListEntries db region = (none, some err))
    ∧ (∀ (pre : List ContestRow) (err : Error) (post : List (Except Error ContestRow))
        (e : Option Error),
        db.QueryContest (contestQuery region)
          = Except.ok ⟨pre.map Except.ok ++ Except.error err :: post, e⟩ →
        getContestListEntries db region = (none, some err)) := by
  refine ⟨rfl, rfl, ?_, ?_, ?_, ?_, ?_, ?_⟩
  · intro rows e h
    obtain ⟨m, hm, hlen, _⟩ := rowLoop_positional (rpgEntry FormatFloat) rows
    refine ⟨m, ?_, hlen⟩
    unfold getRpgListEntries
    simp only [h]
    rw [rpgLoop_eq_rowLoop, hm]
  · intro rows e h
    obtain ⟨m, hm, hlen, _⟩ := rowLoop_positional contestEntry rows
    refine ⟨m, ?_, hlen⟩
    unfold getContestListEntries
    simp only [h]
    rw [contestLoop_eq_rowLoop, hm]
  · intro err h
    unfold getRpgListEntries
    simp only [h]
  · intro pre err post e h
    unfold getRpgListEntries
    simp only [h]
    rw [rpgLoop_eq_rowLoop, rowLoop_error]
  · intro err h
    unfold getContestListEntries
    simp only [h]
  · intro pre err post e h
    unfold getContestListEntries
    simp only [h]
    rw [contestLoop_eq_rowLoop, rowLoop_error]

theorem countWhereSid_ne_zero (rows : List RpgRow) (sid : Int) :
    countWhereSid rows sid ≠ 0 ↔ ∃ r ∈ rows, r.sid = sid := by
  unfold countWhereSid
  constructor
  · intro h
    have hne : rows.filter (fun r => decide (r.sid = sid)) ≠ [] := by
      intro he
      rw [he] at h
      exact h rfl
    obtain ⟨r, hr⟩ := List.exists_mem_of_ne_nil _ hne
    rw [List.mem_filter] at hr
    exact ⟨r, hr.1, by simpa using hr.2⟩
  · rintro ⟨r, hr, hs⟩
    have hmem : r ∈ rows.filter (fun r => decide (r.sid = sid)) := by
      rw [List.mem_filter]
      exact ⟨hr, by simpa using hs⟩
    have hpos : 0 < (rows.filter (fun r => decide (r.sid = sid))).length :=
      List.length_pos_of_mem hmem
    omega

theorem countWhereSid_congr (rows rows2 : List RpgRow) (sid : Int)
    (h : rows.map (fun r => r.sid) = rows2.map (fun r => r.sid)) :
    countWhereSid rows sid = countWhereSid rows2 sid := by
  unfold countWhereSid
  have e : ∀ l : List RpgRow,
      (l.filter (fun r => decide (r.sid = sid))).length
        = ((l.map (fun r => r.sid)).filter (fun s => decide (s = sid))).length := by
    intro l
    induction l with
    | nil => rfl
    | cons a l ih =>
      by_cases ha : a.sid = sid <;> simp [List.filter_cons, ha, ih]
  rw [e rows, e rows2, h]

theorem getRpgPublic_tableDB (t : Tables) (sid : Int) (region : String) :
    getRpgPublic (tableDB t) sid region
      = (decide (countWhereSid
            (if region = "JPN" ∨ region = "" then t.games_jp else t.games_us) sid ≠ 0), none) := by
  unfold getRpgPublic publicQuery tableDB
  by_cases h : region = "JPN" ∨ region = ""
  · simp only [h, if_true]
    rfl
  · simp only [h, if_false]
    rfl

/-- C12: over a store holding the game tables as lists of rows,
`getRpgPublic` returns true without error exactly when some row of the table
of the region has the given sid, and false without error otherwise, whatever
the other columns hold; when the count query fails it returns false and the
error. -/
theorem public_iff_row_exists (t : Tables) (sid : Int) (region : String) :
    (∃ b : Bool, getRpgPublic (tableDB t) sid region = (b, none)
        ∧ (b = true ↔ ∃ r ∈ (if region = "JPN" ∨ region = "" then t.games_jp else t.games_us),
              r.sid = sid))
    ∧ (∀ t2 : Tables,
        t.games_jp.map (fun r => r.sid) = t2.games_jp.map (fun r => r.sid) →
        t.games_us.map (fun r => r.sid) = t2.games_us.map (fun r => r.sid) →
        getRpgPublic (tableDB t) sid region = getRpgPublic (tableDB t2) sid region)
    ∧ (∀ (db : DB) (err : Error),
        db.QueryRowCount (publicQuery sid region).1 (publicQuery sid region).2 = Except.error err →
        getRpgPublic db sid region = (false, some err)) := by
  refine ⟨⟨_, getRpgPublic_tableDB t sid region, ?_⟩, ?_, ?_⟩
  · rw [decide_eq_true_iff]
    exact countWhereSid_ne_zero _ sid
  · intro t2 hjp hus
    rw [getRpgPublic_tableDB, getRpgPublic_tableDB]
    by_cases h : region = "JPN" ∨ region = ""
    · simp only [h, if_true]
      rw [countWhereSid_congr _ _ sid hjp]
    · simp only [h, if_false]
      rw [countWhereSid_congr _ _ sid hus]
  · intro db err h
    unfold getRpgPublic
    simp only [h]

theorem sortClause_eq (sort direction : String) :
    sortClause sort direction
      = (if sort ≠ "" then " ORDER BY " ++ sort ++ " " ++ direction else "", []) := by
  unfold sortClause sortStep
  split_ifs <;> simp

theorem order_ne_empty (sort direction : String) :
    " ORDER BY " ++ sort ++ " " ++ direction ≠ "" := by
  intro h
  have h2 := congrArg String.length h
  simp only [String.length_append] at h2
  have h3 : " ORDER BY ".length = 10 := by decide
  have h4 : "".length = 0 := by decide
  omega

/-- C14: the query of `getRpgListEntries` has an ordering clause exactly
when sort is non-empty; it is then ` ORDER BY ` followed by sort, a blank
and direction as passed, placed after the filter clause and before the
pagination clause; with an empty sort nothing is emitted whatever direction
is. -/
theorem order_clause (region filter keyword sort direction : String)
    (contest award famer count offset : Int) :
    ∃ order : String,
      rpgQuery region filter keyword sort direction contest award famer count offset
        = ((tableStep region).1 ++ (filterClause filter keyword contest award famer).1
              ++ order ++ (pageClause count offset).1,
           (filterClause filter keyword contest award famer).2 ++ (pageClause count offset).2)
      ∧ (sort ≠ "" → order = " ORDER BY " ++ sort ++ " " ++ direction)
      ∧ (sort = "" → order = "")
      ∧ (order ≠ "" ↔ sort ≠ "")
      ∧ (rpgQuery "US" "" "" "" "desc" 0 (-1) 0 0 0).1 = "SELECT * FROM games_us"
      ∧ (rpgQuery "US" "title" "k" "updt" "sideways" 0 (-1) 0 3 0).1
          = "SELECT * FROM games_us WHERE title LIKE CONCAT('%', ?, '%') ORDER BY updt sideways LIMIT ?" := by
  refine ⟨(sortClause sort direction).1, rpgQuery_eq _ _ _ _ _ _ _ _ _ _, ?_, ?_, ?_,
    by decide, by decide⟩
  · intro h
    rw [sortClause_eq]
    simp [h]
  · intro h
    rw [sortClause_eq]
    simp [h]
  · rw [sortClause_eq]
    by_cases h : sort = ""
    · simp [h]
    · simp only [ne_eq, h, not_false_eq_true, if_true, iff_true]
      exact order_ne_empty sort direction

theorem decIdx_encChar (s : Nat) (h : s < 64) : decIdx (encChar s) = some s := by
  interval_cases s <;> rfl

theorem encChar_ne_pad (s : Nat) (h : s < 64) : encChar s ≠ '=' := by
  interval_cases s <;> decide

theorem lowByte_val (a : Byte) (n : Nat) (h : n % 256 = a.val) : lowByte n = a := by
  apply Fin.ext
  exact h

theorem decodeChars_encodeBytes (bs : List Byte) : decodeChars (encodeBytes bs) = some bs := by
  induction bs using encodeBytes.induct with
  | case1 => rfl
  | case2 a =>
    have ha := a.isLt
    simp only [encodeBytes, decodeChars, true_and, if_true,
      decIdx_encChar _ (Nat.mod_lt _ (by decide : 0 < 64))]
    congr 2
    apply lowByte_val
    omega
  | case3 a b =>
    have ha := a.isLt
    have hb := b.isLt
    simp only [encodeBytes, decodeChars, true_and, if_true,
      encChar_ne_pad _ (Nat.mod_lt _ (by decide : 0 < 64)), if_false,
      decIdx_encChar _ (Nat.mod_lt _ (by decide : 0 < 64))]
    congr 2
    · apply lowByte_val
      omega
    · congr 1
      apply lowByte_val
      omega
  | case4 a b c rest ih =>
    have ha := a.isLt
    have hb := b.isLt
    have hc := c.isLt
    simp only [encodeBytes, decodeChars,
      encChar_ne_pad _ (Nat.mod_lt _ (by decide : 0 < 64)), and_false, if_false,
      decIdx_encChar _ (Nat.mod_lt _ (by decide : 0 < 64)), ih]
    congr 2
    · apply lowByte_val
      omega
    · congr 1
      · apply lowByte_val
        omega
      · congr 1
        apply lowByte_val
        omega

theorem DecodeString_EncodeToString (bs : List Byte) :
    DecodeString (EncodeToString bs) = some bs := by
  unfold DecodeString EncodeToString
  exact decodeChars_encodeBytes bs

theorem EncodeToString_injective (a b : List Byte) (h : EncodeToString a = EncodeToString b) :
    a = b := by
  have h2 := congrArg DecodeString h
  rw [DecodeString_EncodeToString, DecodeString_EncodeToString] at h2
  exact Option.some.inj h2


theorem setGenre_baseFields (e : RpgListEntry) (tok : String) :
    (setGenre e tok).baseFields = e.baseFields := by
  by_cases h : tok = "1" ∨ tok = "2" ∨ tok = "3" ∨ tok = "4" ∨ tok = "5" ∨ tok = "6" ∨ tok = "7" ∨ tok = "8" ∨ tok = "9" ∨ tok = "10" ∨ tok = "11" ∨ tok = "12" ∨ tok = "13" ∨ tok = "14" ∨ tok = "15" ∨ tok = "16" ∨ tok = "17" ∨ tok = "18" ∨ tok = "19" ∨ tok = "20" ∨ tok = "21" ∨ tok = "22" ∨ tok = "23" ∨ tok = "24" ∨ tok = "25" ∨ tok = "26" ∨ tok = "27" ∨ tok = "28" ∨ tok = "29" ∨ tok = "30" ∨ tok = "31" ∨ tok = "32" ∨ tok = "33" ∨ tok = "34"
  · rcases h with rfl | rfl | rfl | rfl | rfl | rfl | rfl | rfl | rfl | rfl | rfl | rfl | rfl | rfl | rfl | rfl | rfl | rfl | rfl | rfl | rfl | rfl | rfl | rfl | rfl | rfl | rfl | rfl | rfl | rfl | rfl | rfl | rfl | rfl <;> rfl
  · rw [setGenre_of_other e tok h]

theorem foldl_setGenre_baseFields (toks : List String) (e : RpgListEntry) :
    (toks.foldl setGenre e).baseFields = e.baseFields := by
  induction toks generalizing e with
  | nil => rfl
  | cons t ts ih => rw [List.foldl_cons, ih, setGenre_baseFields]

theorem rpgEntry_baseFields (FormatFloat : Float64 → String) (r : RpgRow) :
    (rpgEntry FormatFloat r).baseFields
      = [Itoa r.sid, Itoa r.suid, EncodeToString r.title, EncodeToString r.uname, r.password,
         r.updt.Format, Itoa r.datablocksize, Itoa r.version, Itoa r.packageversion,
         FormatFloat r.reviewave, r.lang, Itoa r.edit, Itoa r.attributeCol, Itoa r.award,
         Itoa r.famer, EncodeToString r.comment, Itoa r.contest, Itoa r.owner,
         Itoa r.dlcount] := by
  unfold rpgEntry
  rw [foldl_setGenre_baseFields]
  rfl

theorem rpgEntry_fields (FormatFloat : Float64 → String) (r : RpgRow) :
    (rpgEntry FormatFloat r).Sid = Itoa r.sid
    ∧ (rpgEntry FormatFloat r).Suid = Itoa r.suid
    ∧ (rpgEntry FormatFloat r).Title = EncodeToString r.title
    ∧ (rpgEntry FormatFloat r).Uname = EncodeToString r.uname
    ∧ (rpgEntry FormatFloat r).Password = r.password
    ∧ (rpgEntry FormatFloat r).Updt = r.updt.Format
    ∧ (rpgEntry FormatFloat r).DataBlockSize = Itoa r.datablocksize
    ∧ (rpgEntry FormatFloat r).Version = Itoa r.version
    ∧ (rpgEntry FormatFloat r).PackageVersion = Itoa r.packageversion
    ∧ (rpgEntry FormatFloat r).ReviewAve = FormatFloat r.reviewave
    ∧ (rpgEntry FormatFloat r).Lang = r.lang
    ∧ (rpgEntry FormatFloat r).Edit = Itoa r.edit
    ∧ (rpgEntry FormatFloat r).Attribute = Itoa r.attributeCol
    ∧ (rpgEntry FormatFloat r).Award = Itoa r.award
    ∧ (rpgEntry FormatFloat r).Famer = Itoa r.famer
    ∧ (rpgEntry FormatFloat r).Comment = EncodeToString r.comment
    ∧ (rpgEntry FormatFloat r).Contest = Itoa r.contest
    ∧ (rpgEntry FormatFloat r).Owner = Itoa r.owner
    ∧ (rpgEntry FormatFloat r).DlCount = Itoa r.dlcount := by
  have h := rpgEntry_baseFields FormatFloat r
  simp only [RpgListEntry.baseFields, List.cons.injEq, and_true] at h
  exact h

/-- C13: standard-base64 decoding of the `Title`, `Uname`, `Comment` and
contest `Name` fields returns exactly the bytes stored in the column,
whatever they are, so the encoding is injective on these fields. -/
theorem free_text_round_trip (FormatFloat : Float64 → String) (r : RpgRow) (c : ContestRow)
    (bs : List Byte) :
    DecodeString (EncodeToString bs) = some bs
    ∧ DecodeString (rpgEntry FormatFloat r).Title = some r.title
    ∧ DecodeString (rpgEntry FormatFloat r).Uname = some r.uname
    ∧ DecodeString (rpgEntry FormatFloat r).Comment = some r.comment
    ∧ DecodeString (contestEntry c).Name = some c.name
    ∧ (∀ a b : List Byte, EncodeToString a = EncodeToString b → a = b)
    ∧ EncodeToString [] = ""
    ∧ EncodeToString [0, 10, 255, 128] = "AAr/gA=="
    ∧ DecodeString "AAr/gA==" = some [0, 10, 255, 128] := by
  obtain ⟨_, _, hT, hU, _, _, _, _, _, _, _, _, _, _, _, hC, _⟩ := rpgEntry_fields FormatFloat r
  refine ⟨DecodeString_EncodeToString bs, ?_, ?_, ?_, DecodeString_EncodeToString c.name,
    EncodeToString_injective, by decide, by decide, by decide⟩
  · rw [hT]
    exact DecodeString_EncodeToString _
  · rw [hU]
    exact DecodeString_EncodeToString _
  · rw [hC]
    exact DecodeString_EncodeToString _

theorem digitChar_ne_minus (d : Nat) (h : d ≤ 9) : digitChar d ≠ '-' := by
  interval_cases d <;> decide

theorem digitsAux_head (fuel n : Nat) (acc : List Char) (h : n < fuel) :
    ∃ (d : Nat) (rest : List Char),
      d ≤ 9 ∧ (0 < n → 1 ≤ d) ∧ digitsAux fuel n acc = digitChar d :: rest := by
  induction fuel generalizing n acc with
  | zero => omega
  | succ fuel ih =>
    unfold digitsAux
    split_ifs with h10
    · exact ⟨n, acc, by omega, fun hp => hp, rfl⟩
    · obtain ⟨d, rest, hd, hpos, he⟩ := ih (n / 10) (digitChar (n % 10) :: acc) (by omega)
      exact ⟨d, rest, hd, fun _ => hpos (by omega), he⟩

theorem digitsAux_digits (fuel n : Nat) (acc : List Char)
    (hacc : ∀ c ∈ acc, ∃ d : Nat, d ≤ 9 ∧ c = digitChar d) :
    ∀ c ∈ digitsAux fuel n acc, ∃ d : Nat, d ≤ 9 ∧ c = digitChar d := by
  induction fuel generalizing n acc with
  | zero => exact hacc
  | succ fuel ih =>
    unfold digitsAux
    split_ifs with h10
    · intro c hc
      rcases List.mem_cons.mp hc with hc | hc
      · exact ⟨n, by omega, hc⟩
      · exact hacc c hc
    · apply ih
      intro c hc
      rcases List.mem_cons.mp hc with hc | hc
      · exact ⟨n % 10, by omega, hc⟩
      · exact hacc c hc

theorem natNumeral_head (n : Nat) :
    ∃ (d : Nat) (rest : List Char),
      d ≤ 9 ∧ (0 < n → 1 ≤ d) ∧ natNumeral n = digitChar d :: rest :=
  digitsAux_head (n + 1) n [] (Nat.lt_succ_self n)

theorem natNumeral_digits (n : Nat) :
    ∀ c ∈ natNumeral n, ∃ d : Nat, d ≤ 9 ∧ c = digitChar d :=
  digitsAux_digits (n + 1) n [] (by intro c hc; cases hc)

theorem Itoa_nonneg (n : Int) (h : 0 ≤ n) : Itoa n = String.mk (natNumeral n.toNat) := by
  unfold Itoa
  rw [if_neg (by omega)]

theorem Itoa_neg (n : Int) (h : n < 0) : Itoa n = String.mk ('-' :: natNumeral n.natAbs) := by
  unfold Itoa
  rw [if_pos h]

theorem parseDecimal_Itoa (n : Int) : parseDecimal (Itoa n) = n := by
  by_cases h : n < 0
  · rw [Itoa_neg n h]
    unfold parseDecimal
    simp only [numeralVal_natNumeral]
    omega
  · rw [Itoa_nonneg n (by omega)]
    obtain ⟨d, rest, hd, _, he⟩ := natNumeral_head n.toNat
    have hv := numeralVal_natNumeral n.toNat
    rw [he] at hv
    unfold parseDecimal
    simp only [he]
    split
    · rename_i ds heq
      have h1 : digitChar d = '-' := (List.cons.inj heq).1
      exact absurd h1 (digitChar_ne_minus d hd)
    · rw [hv]
      omega

theorem Itoa_injective (n m : Int) (h : Itoa n = Itoa m) : n = m := by
  rw [← parseDecimal_Itoa n, ← parseDecimal_Itoa m, h]

theorem Itoa_neg_eq (n : Int) (h : n < 0) : Itoa n = "-" ++ Itoa (-n) := by
  rw [Itoa_neg n h, Itoa_nonneg (-n) (by omega)]
  have e : (-n).toNat = n.natAbs := by omega
  rw [e]
  rfl

/-- C17: every integer column is rendered by `strconv.Itoa` as the canonical
decimal numeral of its value: `0` for zero, a leading `-` for a negative
value, digits only otherwise and no leading zero; parsing the text gives the
value back, so distinct integers give distinct texts; every integer output
field is taken from the column of the same name. -/
theorem integer_columns_decimal (FormatFloat : Float64 → String) (r : RpgRow)
    (c : ContestRow) (n : Int) :
    parseDecimal (Itoa n) = n
    ∧ (∀ m : Int, Itoa n = Itoa m → n = m)
    ∧ Itoa 0 = "0"
    ∧ (n < 0 → Itoa n = "-" ++ Itoa (-n))
    ∧ (0 < n → ∃ (d : Nat) (rest : List Char),
        1 ≤ d ∧ d ≤ 9 ∧ (Itoa n).data = digitChar d :: rest)
    ∧ (0 ≤ n → ∀ ch ∈ (Itoa n).data, ∃ d : Nat, d ≤ 9 ∧ ch = digitChar d)
    ∧ Itoa (-120) = "-120"
    ∧ Itoa 9007 = "9007"
    ∧ (rpgEntry FormatFloat r).Sid = Itoa r.sid
    ∧ (rpgEntry FormatFloat r).Suid = Itoa r.suid
    ∧ (rpgEntry FormatFloat r).DataBlockSize = Itoa r.datablocksize
    ∧ (rpgEntry FormatFloat r).Version = Itoa r.version
    ∧ (rpgEntry FormatFloat r).PackageVersion = Itoa r.packageversion
    ∧ (rpgEntry FormatFloat r).Edit = Itoa r.edit
    ∧ (rpgEntry FormatFloat r).Attribute = Itoa r.attributeCol
    ∧ (rpgEntry FormatFloat r).Award = Itoa r.award
    ∧ (rpgEntry FormatFloat r).Famer = Itoa r.famer
    ∧ (rpgEntry FormatFloat r).Contest = Itoa r.contest
    ∧ (rpgEntry FormatFloat r).Owner = Itoa r.owner
    ∧ (rpgEntry FormatFloat r).DlCount = Itoa r.dlcount
    ∧ (contestEntry c).Id = Itoa c.id := by
  obtain ⟨hSid, hSuid, _, _, _, _, hDbs, hVer, hPv, _, _, hEdit, hAttr, hAward, hFamer, _,
    hContest, hOwner, hDl⟩ := rpgEntry_fields FormatFloat r
  refine ⟨parseDecimal_Itoa n, Itoa_injective n, by decide, Itoa_neg_eq n, ?_, ?_, by decide,
    by decide, hSid, hSuid, hDbs, hVer, hPv, hEdit, hAttr, hAward, hFamer, hContest, hOwner,
    hDl, rfl⟩
  · intro hpos
    obtain ⟨d, rest, hd, h1, he⟩ := natNumeral_head n.toNat
    refine ⟨d, rest, h1 (by omega), hd, ?_⟩
    rw [Itoa_nonneg n (by omega), he]
  · intro h0 ch hch
    rw [Itoa_nonneg n h0] at hch
    exact natNumeral_digits n.toNat ch hch

theorem placeholders_append (a b : String) :
    placeholders (a ++ b) = placeholders a + placeholders b := by
  unfold placeholders
  rw [String.data_append, List.count_append]

theorem placeholders_of_not_mem (s : String) (h : '?' ∉ s.data) : placeholders s = 0 := by
  unfold placeholders
  exact List.count_eq_zero.mpr h

theorem placeholders_tableStep (region : String) : placeholders (tableStep region).1 = 0 := by
  rcases tableStep_closed region with h | h <;> rw [h] <;> decide

theorem placeholders_filterClause (filter keyword : String) (contest award famer : Int)
    (hf : '?' ∉ filter.data) :
    placeholders (filterClause filter keyword contest award famer).1
      = (filterClause filter keyword contest award famer).2.length := by
  by_cases h : filter = ""
  · subst h
    by_cases hc : contest = 0
    · subst hc
      by_cases ha : award = -1
      · subst ha
        by_cases hm : famer = 0
        · subst hm
          rw [filterClause_none]
          rfl
        · rw [filterClause_famer _ _ hm]
          rfl
      · rw [filterClause_award _ _ _ ha]
        rfl
    · rw [filterClause_contest _ _ _ _ hc]
      rfl
  · rw [filterClause_filter _ _ _ _ _ h]
    dsimp only
    rw [placeholders_append, placeholders_append, placeholders_of_not_mem filter hf]
    split_ifs <;> rfl

theorem placeholders_sortClause (sort direction : String)
    (hs : '?' ∉ sort.data) (hd : '?' ∉ direction.data) :
    placeholders (sortClause sort direction).1 = 0 := by
  rw [sortClause_eq]
  dsimp only
  split_ifs
  · rw [placeholders_append, placeholders_append, placeholders_append,
      placeholders_of_not_mem sort hs, placeholders_of_not_mem direction hd]
    decide
  · decide

theorem placeholders_pageClause (count offset : Int) :
    placeholders (pageClause count offset).1 = (pageClause count offset).2.length := by
  rcases le_or_lt count 0 with hc | hc
  · rw [pageClause_none _ _ hc]
    decide
  · rcases le_or_lt offset 0 with ho | ho
    · rw [pageClause_limit _ _ hc ho]
      rfl
    · rw [pageClause_both _ _ hc ho]
      rfl

theorem filterClause_args (filter keyword : String) (contest award famer : Int) :
    (filterClause filter keyword contest award famer).2
      = (if filter ≠ "" then [Arg.str keyword]
         else if contest ≠ 0 then [Arg.int contest]
         else if award ≠ -1 then [Arg.int award]
         else if famer ≠ 0 then [Arg.int famer]
         else []) := by
  unfold filterClause filterStep
  split_ifs <;> simp

theorem pageClause_args (count offset : Int) :
    (pageClause count offset).2
      = (if count > 0 then
            (if offset > 0 then [Arg.int count, Arg.int offset] else [Arg.int count])
         else []) := by
  unfold pageClause pageStep
  split_ifs <;> simp

/-- C18: when filter, sort and direction contain no `?`, the number of `?`
placeholders in the query text of `getRpgListEntries` equals the number of
bound arguments, which is at most 3, and the arguments come in the order of
their placeholders: the filter argument (keyword, contest, award or famer)
if there is one, then count, then offset. -/
theorem placeholders_match_args (region filter keyword sort direction : String)
    (contest award famer count offset : Int)
    (hf : '?' ∉ filter.data) (hs : '?' ∉ sort.data) (hd : '?' ∉ direction.data) :
    placeholders
        (rpgQuery region filter keyword sort direction contest award famer count offset).1
      = (rpgQuery region filter keyword sort direction contest award famer count offset).2.length
    ∧ (rpgQuery region filter keyword sort direction contest award famer count offset).2.length ≤ 3
    ∧ (rpgQuery region filter keyword sort direction contest award famer count offset).1
        = (tableStep region).1 ++ (filterClause filter keyword contest award famer).1
            ++ (sortClause sort direction).1 ++ (pageClause count offset).1
    ∧ placeholders (tableStep region).1 = 0
    ∧ placeholders (filterClause filter keyword contest award famer).1
        = (filterClause filter keyword contest award famer).2.length
    ∧ placeholders (sortClause sort direction).1 = 0
    ∧ placeholders (pageClause count offset).1 = (pageClause count offset).2.length
    ∧ (rpgQuery region filter keyword sort direction contest award famer count offset).2
        = (if filter ≠ "" then [Arg.str keyword]
           else if contest ≠ 0 then [Arg.int contest]
           else if award ≠ -1 then [Arg.int award]
           else if famer ≠ 0 then [Arg.int famer]
           else [])
          ++ (if count > 0 then
                (if offset > 0 then [Arg.int count, Arg.int offset] else [Arg.int count])
              else []) := by
  have hq := rpgQuery_eq region filter keyword sort direction contest award famer count offset
  have h1 := placeholders_tableStep region
  have h2 := placeholders_filterClause filter keyword contest award famer hf
  have h3 := placeholders_sortClause sort direction hs hd
  have h4 := placeholders_pageClause count offset
  have hargs : (rpgQuery region filter keyword sort direction contest award famer
      count offset).2
      = (if filter ≠ "" then [Arg.str keyword]
           else if contest ≠ 0 then [Arg.int contest]
           else if award ≠ -1 then [Arg.int award]
           else if famer ≠ 0 then [Arg.int famer]
           else [])
          ++ (if count > 0 then
                (if offset > 0 then [Arg.int count, Arg.int offset] else [Arg.int count])
              else []) := by
    rw [hq]
    dsimp only
    rw [filterClause_args, pageClause_args]
  refine ⟨?_, ?_, by rw [hq], h1, h2, h3, h4, hargs⟩
  · rw [hq]
    dsimp only
    rw [placeholders_append, placeholders_append, placeholders_append, h1, h2, h3, h4,
      List.length_append]
    omega
  · rw [hargs]
    split_ifs <;> simp

theorem placeholders_match_args_witness :
    placeholders (rpgQuery "US" "title" "what?" "updt" "desc" 0 (-1) 0 10 5).1
      = (rpgQuery "US" "title" "what?" "updt" "desc" 0 (-1) 0 10 5).2.length
    ∧ (rpgQuery "US" "title" "what?" "updt" "desc" 0 (-1) 0 10 5).2.length ≤ 3
    ∧ (rpgQuery "US" "title" "what?" "updt" "desc" 0 (-1) 0 10 5).1
        = (tableStep "US").1 ++ (filterClause "title" "what?" 0 (-1) 0).1
            ++ (sortClause "updt" "desc").1 ++ (pageClause 10 5).1
    ∧ placeholders (tableStep "US").1 = 0
    ∧ placeholders (filterClause "title" "what?" 0 (-1) 0).1
        = (filterClause "title" "what?" 0 (-1) 0).2.length
    ∧ placeholders (sortClause "updt" "desc").1 = 0
    ∧ placeholders (pageClause 10 5).1 = (pageClause 10 5).2.length
    ∧ (rpgQuery "US" "title" "what?" "updt" "desc" 0 (-1) 0 10 5).2
        = (if "title" ≠ "" then [Arg.str "what?"]
           else if (0 : Int) ≠ 0 then [Arg.int 0]
           else if (-1 : Int) ≠ -1 then [Arg.int (-1)]
           else if (0 : Int) ≠ 0 then [Arg.int 0]
           else [])
          ++ (if (10 : Int) > 0 then
                (if (5 : Int) > 0 then [Arg.int 10, Arg.int 5] else [Arg.int 10])
              else []) :=
  placeholders_match_args "US" "title" "what?" "updt" "desc" 0 (-1) 0 10 5
    (by decide) (by decide) (by decide)

theorem rpgEntry_Genre (FormatFloat : Float64 → String) (r : RpgRow) (k : Nat)
    (h1 : 1 ≤ k) (h34 : k ≤ 34) :
    (rpgEntry FormatFloat r).Genre k = (if Itoa k ∈ Split r.genre then "1" else "") := by
  unfold rpgEntry
  rw [foldl_setGenre_Genre _ _ k h1 h34]
  congr 1
  interval_cases k <;> rfl

theorem splitChars_ne_nil (sep : Char) (cs : List Char) : splitChars sep cs ≠ [] := by
  cases cs with
  | nil => simp [splitChars]
  | cons c cs =>
    unfold splitChars
    split_ifs
    · simp
    · split <;> simp

theorem splitChars_append (sep : Char) (a b : List Char) :
    splitChars sep (a ++ sep :: b) = splitChars sep a ++ splitChars sep b := by
  induction a with
  | nil => simp [splitChars]
  | cons c a ih =>
    by_cases hc : c = sep
    · simp [splitChars, hc, ih]
    · simp only [List.cons_append, splitChars, hc, if_false]
      rw [show a.append (sep :: b) = a ++ sep :: b from rfl, ih]
      cases hs : splitChars sep a with
      | nil => exact absurd hs (splitChars_ne_nil sep a)
      | cons t ts => rfl

theorem splitChars_of_not_mem (sep : Char) (cs : List Char) (h : sep ∉ cs) :
    splitChars sep cs = [cs] := by
  induction cs with
  | nil => rfl
  | cons c cs ih =>
    simp only [List.mem_cons, not_or] at h
    have hc : ¬ c = sep := fun e => h.1 e.symm
    simp [splitChars, hc, ih h.2]

theorem Split_append_token (g u : String) (hu : ',' ∉ u.data) :
    Split (g ++ "," ++ u) = Split g ++ [u] := by
  unfold Split
  have e : (g ++ "," ++ u).data = g.data ++ ',' :: u.data := by
    simp [String.data_append]
  rw [e, splitChars_append, splitChars_of_not_mem _ _ hu]
  simp

/-- C15: the 34 genre flags depend only on the set of comma-separated
tokens of the genre string: two genre strings with the same set of tokens
give the same flags, so repeating or reordering codes changes nothing, and
appending an unknown code changes nothing either. -/
theorem genre_flags_token_set (FormatFloat : Float64 → String) (r1 r2 : RpgRow) (k : Nat)
    (h1 : 1 ≤ k) (h34 : k ≤ 34) :
    ((∀ t : String, t ∈ Split r1.genre ↔ t ∈ Split r2.genre) →
        (rpgEntry FormatFloat r1).Genre k = (rpgEntry FormatFloat r2).Genre k)
    ∧ (∀ u : String, ',' ∉ u.data → (∀ j : Nat, 1 ≤ j → j ≤ 34 → u ≠ Itoa j) →
        r2.genre = r1.genre ++ "," ++ u →
        (rpgEntry FormatFloat r1).Genre k = (rpgEntry FormatFloat r2).Genre k)
    ∧ (rpgEntry FormatFloat (sampleRpgRow 1 "3,3,17")).Genre k
        = (rpgEntry FormatFloat (sampleRpgRow 1 "17,3")).Genre k
    ∧ (rpgEntry FormatFloat (sampleRpgRow 1 "17,3,99")).Genre k
        = (rpgEntry FormatFloat (sampleRpgRow 1 "17,3")).Genre k := by
  have key : ∀ a b : RpgRow, (Itoa k ∈ Split a.genre ↔ Itoa k ∈ Split b.genre) →
      (rpgEntry FormatFloat a).Genre k = (rpgEntry FormatFloat b).Genre k := by
    intro a b hab
    rw [rpgEntry_Genre _ _ k h1 h34, rpgEntry_Genre _ _ k h1 h34]
    by_cases hm : Itoa k ∈ Split a.genre
    · rw [if_pos hm, if_pos (hab.mp hm)]
    · rw [if_neg hm, if_neg (fun h => hm (hab.mpr h))]
  refine ⟨fun hset => key r1 r2 (hset _), ?_, ?_, ?_⟩
  · intro u hu hne hg
    apply key
    rw [hg, Split_append_token _ _ hu, List.mem_append, List.mem_singleton]
    constructor
    · exact Or.inl
    · rintro (h | h)
      · exact h
      · exact absurd h.symm (hne k h1 h34)
  · apply key
    have e1 : Split (sampleRpgRow 1 "3,3,17").genre = ["3", "3", "17"] := by decide
    have e2 : Split (sampleRpgRow 1 "17,3").genre = ["17", "3"] := by decide
    rw [e1, e2]
    simp only [List.mem_cons, List.mem_singleton, List.not_mem_nil, or_false]
    tauto
  · apply key
    have e1 : Split (sampleRpgRow 1 "17,3,99").genre = ["17", "3", "99"] := by decide
    have e2 : Split (sampleRpgRow 1 "17,3").genre = ["17", "3"] := by decide
    rw [e1, e2]
    simp only [List.mem_cons, List.mem_singleton, List.not_mem_nil, or_false]
    constructor
    · rintro (h | h | h)
      · exact Or.inl h
      · exact Or.inr h
      · exfalso
        revert h
        interval_cases k <;> decide
    · rintro (h | h)
      · exact Or.inl h
      · exact Or.inr (Or.inl h)

theorem genre_flags_token_set_witness :
    ((∀ t : String, t ∈ Split (sampleRpgRow 1 "3,3,17").genre
          ↔ t ∈ Split (sampleRpgRow 2 "17,3").genre) →
        (rpgEntry (fun _ => "0.00000") (sampleRpgRow 1 "3,3,17")).Genre 3
          = (rpgEntry (fun _ => "0.00000") (sampleRpgRow 2 "17,3")).Genre 3)
    ∧ (∀ u : String, ',' ∉ u.data → (∀ j : Nat, 1 ≤ j → j ≤ 34 → u ≠ Itoa j) →
        (sampleRpgRow 2 "17,3").genre = (sampleRpgRow 1 "3,3,17").genre ++ "," ++ u →
        (rpgEntry (fun _ => "0.00000") (sampleRpgRow 1 "3,3,17")).Genre 3
          = (rpgEntry (fun _ => "0.00000") (sampleRpgRow 2 "17,3")).Genre 3)
    ∧ (rpgEntry (fun _ => "0.00000") (sampleRpgRow 1 "3,3,17")).Genre 3
        = (rpgEntry (fun _ => "0.00000") (sampleRpgRow 1 "17,3")).Genre 3
    ∧ (rpgEntry (fun _ => "0.00000") (sampleRpgRow 1 "17,3,99")).Genre 3
        = (rpgEntry (fun _ => "0.00000") (sampleRpgRow 1 "17,3")).Genre 3 :=
  genre_flags_token_set (fun _ => "0.00000") (sampleRpgRow 1 "3,3,17") (sampleRpgRow 2 "17,3") 3
    (by decide) (by decide)

/-- C19: genre tokens are compared with the numerals `1` to `34` by string
equality: a token with a blank, a sign or a leading zero, such as ` 3`,
`3 `, `+3` or `03`, sets no flag, and the empty genre string, which is one
empty token, gives an entry with all 34 flags empty. -/
theorem genre_exact_tokens (FormatFloat : Float64 → String) (r : RpgRow) (k : Nat)
    (h1 : 1 ≤ k) (h34 : k ≤ 34)
    (hg : r.genre ∈ ["", " 3", "3 ", "+3", "03"]) :
    (rpgEntry FormatFloat r).Genre k = ""
    ∧ Split "" = [""]
    ∧ (∀ (e : RpgListEntry) (tok : String),
        tok ∈ ["", " 3", "3 ", "+3", "03"] → setGenre e tok = e)
    ∧ (rpgEntry FormatFloat (sampleRpgRow 1 "3")).Genre 3 = "1" := by
  have hne : ∀ tok : String, tok ∈ ["", " 3", "3 ", "+3", "03"] →
      ∀ j : Nat, 1 ≤ j → j ≤ 34 → tok ≠ Itoa j := by
    intro tok htok j hj1 hj34
    simp only [List.mem_cons, List.mem_singleton, List.not_mem_nil, or_false] at htok
    rcases htok with rfl | rfl | rfl | rfl | rfl <;> interval_cases j <;> decide
  have hsplit : Split r.genre = [r.genre] := by
    simp only [List.mem_cons, List.mem_singleton, List.not_mem_nil, or_false] at hg
    rcases hg with h | h | h | h | h <;> rw [h] <;> decide
  refine ⟨?_, by decide, fun e tok htok => setGenre_unknown e tok (hne tok htok), ?_⟩
  · rw [rpgEntry_Genre _ _ k h1 h34, hsplit, if_neg]
    rw [List.mem_singleton]
    exact fun h => hne r.genre hg k h1 h34 h.symm
  · rw [rpgEntry_Genre _ _ 3 (by decide) (by decide)]
    decide

theorem genre_exact_tokens_witness :
    (rpgEntry (fun _ => "0.00000") (sampleRpgRow 1 " 3")).Genre 3 = ""
    ∧ Split "" = [""]
    ∧ (∀ (e : RpgListEntry) (tok : String),
        tok ∈ ["", " 3", "3 ", "+3", "03"] → setGenre e tok = e)
    ∧ (rpgEntry (fun _ => "0.00000") (sampleRpgRow 1 "3")).Genre 3 = "1" :=
  genre_exact_tokens (fun _ => "0.00000") (sampleRpgRow 1 " 3") 3 (by decide) (by decide)
    (by decide)

theorem anySuffix_iff (f : List Char → Bool) (t : List Char) :
    anySuffix f t = true ↔ ∃ s : List Char, s <:+ t ∧ f s = true := by
  induction t with
  | nil =>
    simp only [anySuffix, List.suffix_nil]
    constructor
    · intro h
      exact ⟨[], rfl, h⟩
    · rintro ⟨s, rfl, h⟩
      exact h
  | cons c t ih =>
    simp only [anySuffix, Bool.or_eq_true, ih, List.suffix_cons_iff]
    constructor
    · rintro (h | ⟨s, hs, h⟩)
      · exact ⟨c :: t, Or.inl rfl, h⟩
      · exact ⟨s, Or.inr hs, h⟩
    · rintro ⟨s, hs | hs, h⟩
      · left
        rw [← hs]
        exact h
      · exact Or.inr ⟨s, hs, h⟩

theorem likeMatch_pct (p t : List Char) :
    likeMatch ('%' :: p) t = anySuffix (likeMatch p) t := by
  simp only [likeMatch, if_true]

theorem likeMatch_cons_nil (k : Char) (p : List Char) (hk : ¬ k = '%') :
    likeMatch (k :: p) [] = false := by
  simp [likeMatch, hk]

theorem likeMatch_cons_cons (k c : Char) (p t : List Char) (hk : ¬ k = '%') :
    likeMatch (k :: p) (c :: t)
      = ((decide (k = '_') || decide (k = c)) && likeMatch p t) := by
  simp only [likeMatch, hk, if_false]

theorem likeMatch_literal (kw p t : List Char)
    (hpct : '%' ∉ kw) (hus : '_' ∉ kw) :
    likeMatch (kw ++ p) t = true ↔ ∃ t1 : List Char, t = kw ++ t1 ∧ likeMatch p t1 = true := by
  induction kw generalizing t with
  | nil => simp
  | cons k kw ih =>
    simp only [List.mem_cons, not_or] at hpct hus
    have hk1 : ¬ k = '%' := fun e => hpct.1 e.symm
    have hk2 : ¬ k = '_' := fun e => hus.1 e.symm
    cases t with
    | nil =>
      rw [List.cons_append, likeMatch_cons_nil _ _ hk1]
      simp
    | cons c t =>
      rw [List.cons_append, likeMatch_cons_cons _ _ _ _ hk1]
      simp only [hk2, decide_False, Bool.false_or, Bool.and_eq_true, decide_eq_true_eq,
        ih t hpct.2 hus.2, List.cons_append, List.cons.injEq]
      constructor
      · rintro ⟨hkc, t1, ht, hm⟩
        exact ⟨t1, ⟨hkc.symm, ht⟩, hm⟩
      · rintro ⟨t1, ⟨hkc, ht⟩, hm⟩
        exact ⟨hkc.symm, t1, ht, hm⟩

theorem likeMatch_percent (t : List Char) : likeMatch ['%'] t = true := by
  rw [likeMatch_pct, anySuffix_iff]
  exact ⟨[], List.nil_suffix, rfl⟩

theorem likeMatch_of_prefix (kw p t1 : List Char) (h : likeMatch p t1 = true) :
    likeMatch (kw ++ p) (kw ++ t1) = true := by
  induction kw with
  | nil => exact h
  | cons k kw ih =>
    by_cases hk : k = '%'
    · rw [List.cons_append, List.cons_append, hk, likeMatch_pct, anySuffix_iff]
      exact ⟨kw ++ t1, List.suffix_cons _ _, ih⟩
    · rw [List.cons_append, List.cons_append, likeMatch_cons_cons _ _ _ _ hk]
      simp [ih]

theorem likePattern_of_contains (keyword : String) (text : List Char)
    (h : keyword.data <:+: text) : likeMatch (likePattern keyword) text = true := by
  obtain ⟨pre, post, rfl⟩ := h
  unfold likePattern
  rw [List.cons_append, likeMatch_pct, anySuffix_iff]
  refine ⟨keyword.data ++ post, ⟨pre, by simp⟩, ?_⟩
  exact likeMatch_of_prefix _ _ _ (likeMatch_percent post)

theorem likePattern_iff_contains (keyword : String) (text : List Char)
    (hpct : '%' ∉ keyword.data) (hus : '_' ∉ keyword.data) :
    likeMatch (likePattern keyword) text = true ↔ keyword.data <:+: text := by
  constructor
  · intro h
    unfold likePattern at h
    rw [List.cons_append, likeMatch_pct, anySuffix_iff] at h
    obtain ⟨s, ⟨pre, hs⟩, hm⟩ := h
    rw [likeMatch_literal _ _ _ hpct hus] at hm
    obtain ⟨t1, rfl, _⟩ := hm
    exact ⟨pre, t1, by rw [← hs]; simp⟩
  · exact likePattern_of_contains keyword text

/-- C16 as stated fails: with the keyword `a_c` the clause also selects the
row `abc`, which does not contain `a_c`. -/
theorem like_substring_counterexample :
    selectLike (fun r : String => r.data) "a_c" ["abc", "a_c", "xyz"] = ["abc", "a_c"]
    ∧ selectContaining (fun r : String => r.data) "a_c" ["abc", "a_c", "xyz"] = ["a_c"]
    ∧ selectLike (fun r : String => r.data) "a_c" ["abc", "a_c", "xyz"]
        ≠ selectContaining (fun r : String => r.data) "a_c" ["abc", "a_c", "xyz"]
    ∧ (filterClause "title" "a_c" 0 (-1) 0)
        = (" WHERE title LIKE CONCAT('%', ?, '%')", [Arg.str "a_c"]) := by
  decide

/-- C16, amended: for the filters title, uname and suid the generated clause
is `LIKE CONCAT('%', ?, '%')` with the keyword bound as it is; for a keyword
that contains neither `%` nor `_` the rows it selects are exactly the rows
whose column contains the keyword as a literal substring; for any keyword
every such row is selected. -/
theorem like_substring_of_plain {α : Type} (col : α → List Char) (rows : List α)
    (filter keyword : String) (contest award famer : Int)
    (hfilter : filter ∈ ["title", "uname", "suid"])
    (hpct : '%' ∉ keyword.data) (hus : '_' ∉ keyword.data) :
    filterClause filter keyword contest award famer
        = (" WHERE " ++ filter ++ " LIKE CONCAT('%', ?, '%')", [Arg.str keyword])
    ∧ selectLike col keyword rows = selectContaining col keyword rows
    ∧ (∀ (kw : String) (r : α), r ∈ selectContaining col kw rows → r ∈ selectLike col kw rows) := by
  refine ⟨?_, ?_, ?_⟩
  · simp only [List.mem_cons, List.mem_singleton, List.not_mem_nil, or_false] at hfilter
    rcases hfilter with h | h | h <;> subst h <;>
      rw [filterClause_filter _ _ _ _ _ (by decide)] <;> rfl
  · unfold selectLike selectContaining containsSub
    apply List.filter_congr
    intro r _
    by_cases h : keyword.data <:+: col r
    · rw [(likePattern_iff_contains keyword (col r) hpct hus).mpr h]
      simp [h]
    · have h2 : likeMatch (likePattern keyword) (col r) = false := by
        rw [← Bool.not_eq_true]
        exact fun hm => h ((likePattern_iff_contains keyword (col r) hpct hus).mp hm)
      rw [h2]
      simp [h]
  · intro kw r hr
    unfold selectContaining containsSub at hr
    unfold selectLike
    rw [List.mem_filter] at hr ⊢
    exact ⟨hr.1, likePattern_of_contains kw (col r) (by simpa using hr.2)⟩

theorem like_substring_of_plain_witness :
    filterClause "uname" "bc" 0 (-1) 0
        = (" WHERE " ++ "uname" ++ " LIKE CONCAT('%', ?, '%')", [Arg.str "bc"])
    ∧ selectLike (fun r : String => r.data) "bc" ["abcd", "b_c", "BC"]
        = selectContaining (fun r : String => r.data) "bc" ["abcd", "b_c", "BC"]
    ∧ (∀ (kw : String) (r : String),
        r ∈ selectContaining (fun r : String => r.data) kw ["abcd", "b_c", "BC"] →
        r ∈ selectLike (fun r : String => r.data) kw ["abcd", "b_c", "BC"]) :=
  like_substring_of_plain (fun r : String => r.data) ["abcd", "b_c", "BC"] "uname" "bc" 0 (-1) 0
    (by decide) (by decide) (by decide)

end Refes
